import Mathlib

/-!
CSE7766 power-meter frame decoder

A shallow embedding of `esphome/components/cse7766/cse7766.cpp`
(`CSE7766Component::loop`, `check_byte_`, `parse_data_`, `update`,
`get_24_bit_uint_`) and theorems about it.

Conventions of the embedding

* `uint8_t` bytes are `Fin 256`; they are read as `Nat` before any arithmetic.
* `uint32_t` values are `Nat`; every operation that can wrap is written with an
  explicit reduction modulo `2^32` (`add_u32`, `sub_u32`, `inc_u32`).
* `float` values are exact rationals (`ℚ`).  Division by zero is `0` in `ℚ`
  while it is `inf`/`NaN` in C++, so every statement that looks at the value of
  a quotient assumes the divisor is non-zero.
* The UART is the list of bytes that `read_byte` hands out during one `loop()`
  invocation; `millis()` is the argument `now`.
* `trace_` is a ghost field, absent from the C++ object: it logs, oldest event
  first, what the component did (bytes read, resets, calls of `parse_data_`,
  values published).  No control flow reads it.
-/

namespace CSE7766

/-- One `uint8_t`. -/
abbrev Byte := Fin 256

/-- The frame buffer `uint8_t raw_data_[24]`. -/
abbrev RawData := Fin 24 → Byte

/-- The four sensors a value can be published to. -/
inductive SensorId where
  | voltage
  | current
  | power
  | energy
  deriving DecidableEq, Repr

/-- Ghost events logged in `trace_`. -/
inductive Event where
  /-- `loop()` took the `now - last_transmission_ >= 500` branch. -/
  | timeout
  /-- `read_byte` stored this byte at the cursor. -/
  | rx (b : Byte)
  /-- `check_byte_` returned false: cursor reset, warning set. -/
  | reject
  /-- `parse_data_` was called while the buffer had this content. -/
  | parse (buf : List Byte)
  /-- `sensor->publish_state(v)` was called. -/
  | publish (sensor : SensorId) (v : ℚ)
  deriving DecidableEq

/-- Modelled from the spec: the class declaration (`cse7766.h`) is not among
the sources, so the members are those `cse7766.cpp` uses, with the types its
code gives them (`float &acc`, `uint32_t &counts`, `uint8_t index`, the
24-byte buffer of §3).  `voltage_sensor_` .. `energy_sensor_` tell whether the
sensor pointer is non-null, `warning_` is the flag driven by
`status_set_warning` / `status_clear_warning`, `trace_` is the ghost trace. -/
structure CSE7766Component where
  raw_data_ : RawData
  raw_data_index_ : Nat
  last_transmission_ : Nat
  voltage_sensor_ : Bool
  current_sensor_ : Bool
  power_sensor_ : Bool
  energy_sensor_ : Bool
  voltage_acc_ : ℚ
  current_acc_ : ℚ
  power_acc_ : ℚ
  energy_total_ : ℚ
  cf_pulses_last_ : Nat
  voltage_counts_ : Nat
  current_counts_ : Nat
  power_counts_ : Nat
  energy_total_counts_ : Nat
  warning_ : Bool
  trace_ : List Event

/-- Wrapping `uint32_t` subtraction `a - b`. -/
def sub_u32 (a b : Nat) : Nat := (((a : Int) - (b : Int)) % 4294967296).toNat

/-- Wrapping `uint32_t` addition `a + b`. -/
def add_u32 (a b : Nat) : Nat := (a + b) % 4294967296

/-- Wrapping `uint32_t` increment `c++`. -/
def inc_u32 (c : Nat) : Nat := (c + 1) % 4294967296

/-- The read `raw_data_[i]`, as a natural number.  A read outside the array is
undefined in C++; the embedding returns 0 there. -/
def raw_at (raw : RawData) (i : Nat) : Nat :=
  if h : i < 24 then (raw ⟨i, h⟩).val else 0

/-- The store `raw_data_[i] = b` done by `read_byte`.  A store outside the
array is undefined in C++; the embedding leaves the buffer alone there. -/
def raw_store (raw : RawData) (i : Nat) (b : Byte) : RawData :=
  if h : i < 24 then Function.update raw ⟨i, h⟩ b else raw

/-- The buffer content as a list of 24 bytes, position 0 first. -/
def raw_list (raw : RawData) : List Byte := List.ofFn raw

/-- The checksum loop of `check_byte_`:
`uint8_t checksum = 0; for (i = 2; i < 23; i++) checksum += raw_data_[i];`. -/
def checksum (raw : RawData) : Nat :=
  (List.range' 2 21).foldl (fun c i => (c + raw_at raw i) % 256) 0

/-- `CSE7766Component::check_byte_`. -/
def check_byte_ (s : CSE7766Component) : Bool :=
  let index := s.raw_data_index_
  let byte := raw_at s.raw_data_ index
  if index = 0 then
    !((byte != 0x55) && ((byte &&& 0xF0) != 0xF0) && (byte != 0xAA))
  else if index = 1 then
    if byte != 0x5A then false else true
  else if index = 23 then
    if checksum s.raw_data_ != raw_at s.raw_data_ 23 then false else true
  else
    true

/-- `CSE7766Component::get_24_bit_uint_`. -/
def get_24_bit_uint_ (s : CSE7766Component) (start_index : Nat) : Nat :=
  (raw_at s.raw_data_ start_index <<< 16) ||| (raw_at s.raw_data_ (start_index + 1) <<< 8) |||
    raw_at s.raw_data_ (start_index + 2)

/-- The local `header1` of `parse_data_`. -/
def header1 (s : CSE7766Component) : Nat := raw_at s.raw_data_ 0

/-- True when `parse_data_` takes one of its two early `return`s. -/
def aborts (s : CSE7766Component) : Bool :=
  if header1 s = 0xAA then true
  else if (header1 s &&& 0xF0) = 0xF0 then
    if (header1 s &&& 0xD) ≠ 0 then true else false
  else false

/-- The local `power_cycle_exceeds_range` of `parse_data_` (on the path that
does not return early). -/
def power_cycle_exceeds_range (s : CSE7766Component) : Bool :=
  if (header1 s &&& 0xF0) = 0xF0 then (header1 s &&& (1 <<< 1)) != 0 else false

/-- The local `adj` of `parse_data_`. -/
def adj (s : CSE7766Component) : Nat := raw_at s.raw_data_ 20

/-- The local `cf_pulses` of `parse_data_`. -/
def cf_pulses (s : CSE7766Component) : Nat :=
  (raw_at s.raw_data_ 21 <<< 8) + raw_at s.raw_data_ 22

/-- The local `have_power` of `parse_data_`. -/
def have_power (s : CSE7766Component) : Bool := (adj s &&& 0x10) != 0

/-- The local `have_current` of `parse_data_`. -/
def have_current (s : CSE7766Component) : Bool := (adj s &&& 0x20) != 0

/-- The local `have_voltage` of `parse_data_`. -/
def have_voltage (s : CSE7766Component) : Bool := (adj s &&& 0x40) != 0

/-- The value of the local `voltage` after the voltage block. -/
def voltage (s : CSE7766Component) : ℚ :=
  if have_voltage s then (get_24_bit_uint_ s 2 : ℚ) / (get_24_bit_uint_ s 5 : ℚ) else 0

/-- The value of the local `power` after the power block. -/
def power (s : CSE7766Component) : ℚ :=
  if have_power s then
    if !power_cycle_exceeds_range s then
      (get_24_bit_uint_ s 14 : ℚ) / (get_24_bit_uint_ s 17 : ℚ)
    else 0
  else 0

/-- The value of `cf_pulses_last_` after
`if (cf_pulses_last_ == 0) cf_pulses_last_ = cf_pulses;`. -/
def cf_pulses_base (s : CSE7766Component) : Nat :=
  if s.cf_pulses_last_ = 0 then cf_pulses s else s.cf_pulses_last_

/-- The local `cf_diff` of `parse_data_`. -/
def cf_diff (s : CSE7766Component) : Nat :=
  if cf_pulses s < cf_pulses_base s then
    add_u32 (cf_pulses s) (sub_u32 0x10000 (cf_pulses_base s))
  else
    sub_u32 (cf_pulses s) (cf_pulses_base s)

/-- The value of the local `energy` inside the power block. -/
def energy (s : CSE7766Component) : ℚ :=
  (cf_diff s : ℚ) * (get_24_bit_uint_ s 14 : ℚ) / 1000000 / 3600

/-- The value of the local `current` after the current block. -/
def current (s : CSE7766Component) : ℚ :=
  if have_current s then
    if have_voltage s && !have_power s then 0
    else if power s ≠ 0 then (get_24_bit_uint_ s 8 : ℚ) / (get_24_bit_uint_ s 11 : ℚ)
    else 0
  else 0

/-- The voltage block of `parse_data_`: `if (have_voltage) { ... }`. -/
def parse_voltage (s : CSE7766Component) : CSE7766Component :=
  if have_voltage s then
    { s with voltage_acc_ := s.voltage_acc_ + voltage s
             voltage_counts_ := inc_u32 s.voltage_counts_ }
  else s

/-- The power and energy block of `parse_data_`: `if (have_power) { ... }`. -/
def parse_power (s : CSE7766Component) : CSE7766Component :=
  if have_power s then
    { s with power_acc_ := s.power_acc_ + power s
             power_counts_ := inc_u32 s.power_counts_
             cf_pulses_last_ := cf_pulses s
             energy_total_ := s.energy_total_ + energy s
             energy_total_counts_ := inc_u32 s.energy_total_counts_ }
  else s

/-- The current block of `parse_data_`: `if (have_current) { ... }`.  The
locals `have_voltage`, `have_power`, `power` are recomputed from the buffer,
which the earlier blocks do not change. -/
def parse_current (s : CSE7766Component) : CSE7766Component :=
  if have_current s then
    let s1 :=
      if have_voltage s && !have_power s then { s with power_counts_ := inc_u32 s.power_counts_ }
      else s
    { s1 with current_acc_ := s1.current_acc_ + current s
              current_counts_ := inc_u32 s1.current_counts_ }
  else s

/-- `CSE7766Component::parse_data_`. -/
def parse_data_ (s : CSE7766Component) : CSE7766Component :=
  if header1 s = 0xAA then s
  else if (header1 s &&& 0xF0) = 0xF0 then
    if (header1 s &&& 0xD) ≠ 0 then s
    else parse_current (parse_power (parse_voltage s))
  else parse_current (parse_power (parse_voltage s))

/-- The call `read_byte(&raw_data_[raw_data_index_])` when the UART hands out
`b`: the byte is stored at the cursor (and logged). -/
def read_byte (s : CSE7766Component) (b : Byte) : CSE7766Component :=
  { s with raw_data_ := raw_store s.raw_data_ s.raw_data_index_ b
           trace_ := s.trace_ ++ [Event.rx b] }

/-- Ghost step: logs that `parse_data_` is about to be called on the current
buffer.  Changes nothing but the trace. -/
def log_parse (s : CSE7766Component) : CSE7766Component :=
  { s with trace_ := s.trace_ ++ [Event.parse (raw_list s.raw_data_)] }

/-- One pass through the body of the `while (available() != 0)` loop of
`loop()`, reading byte `b`. -/
def loop_body (s : CSE7766Component) (b : Byte) : CSE7766Component :=
  let s1 := read_byte s b
  if !check_byte_ s1 then
    { s1 with raw_data_index_ := 0
              warning_ := true
              trace_ := s1.trace_ ++ [Event.reject] }
  else
    let s2 :=
      if s1.raw_data_index_ = 23 then
        { parse_data_ (log_parse s1) with warning_ := false }
      else s1
    { s2 with raw_data_index_ := (s2.raw_data_index_ + 1) % 24 }

/-- `CSE7766Component::loop`, called at time `now = millis()` while the UART
hands out the bytes `avail`. -/
def loop (s : CSE7766Component) (now : Nat) (avail : List Byte) : CSE7766Component :=
  let s1 :=
    if sub_u32 now s.last_transmission_ ≥ 500 then
      { s with raw_data_index_ := 0, trace_ := s.trace_ ++ [Event.timeout] }
    else s
  if avail.length = 0 then s1
  else avail.foldl loop_body { s1 with last_transmission_ := now }

/-- The lambda `publish_state` of `update()`, for the accumulator pair
`(acc, counts)` and the sensor `id` (`present` tells whether the sensor pointer
is non-null).  Returns the new pair and the events logged. -/
def publish_state (id : SensorId) (present : Bool) (acc : ℚ) (counts : Nat) :
    ℚ × Nat × List Event :=
  if counts ≠ 0 then
    let avg := acc / (counts : ℚ)
    (0, 0, if present then [Event.publish id avg] else [])
  else (acc, counts, [])

/-- `CSE7766Component::update`. -/
def update (s : CSE7766Component) : CSE7766Component :=
  let v := publish_state SensorId.voltage s.voltage_sensor_ s.voltage_acc_ s.voltage_counts_
  let c := publish_state SensorId.current s.current_sensor_ s.current_acc_ s.current_counts_
  let p := publish_state SensorId.power s.power_sensor_ s.power_acc_ s.power_counts_
  let s1 := { s with voltage_acc_ := v.1, voltage_counts_ := v.2.1
                     current_acc_ := c.1, current_counts_ := c.2.1
                     power_acc_ := p.1, power_counts_ := p.2.1
                     trace_ := s.trace_ ++ v.2.2 ++ c.2.2 ++ p.2.2 }
  if s1.energy_total_counts_ ≠ 0 then
    { s1 with energy_total_counts_ := 0
              trace_ := s1.trace_ ++
                (if s1.energy_sensor_ then [Event.publish SensorId.energy s1.energy_total_] else []) }
  else s1

/-- Runs `loop()` once per element of `calls`, in order; each element is the
time of the call and the bytes available during it. -/
def run (s : CSE7766Component) (calls : List (Nat × List Byte)) : CSE7766Component :=
  calls.foldl (fun st c => loop st c.1 c.2) s

/-- A buffer built from a list of numbers (missing positions are 0); used to
write concrete frames. -/
def frame_of (l : List Nat) : RawData := fun i => Fin.ofNat (l.getD i.val 0)

/-- A component with the given buffer and `cf_pulses_last_`, cursor 0, all
accumulators zero, no sensor attached, empty trace. -/
def fresh (raw : RawData) (last : Nat) : CSE7766Component :=
  { raw_data_ := raw, raw_data_index_ := 0, last_transmission_ := 0
    voltage_sensor_ := false, current_sensor_ := false, power_sensor_ := false
    energy_sensor_ := false
    voltage_acc_ := 0, current_acc_ := 0, power_acc_ := 0, energy_total_ := 0
    cf_pulses_last_ := last
    voltage_counts_ := 0, current_counts_ := 0, power_counts_ := 0, energy_total_counts_ := 0
    warning_ := false, trace_ := [] }

/-- The component with byte 0 of the buffer (header byte 1) replaced by `b`. -/
def with_header (s : CSE7766Component) (b : Byte) : CSE7766Component :=
  { s with raw_data_ := Function.update s.raw_data_ 0 b }

/-- The component with the buffer replaced by `raw`: the next frame has been
read into `raw_data_`. -/
def next_frame (s : CSE7766Component) (raw : RawData) : CSE7766Component :=
  { s with raw_data_ := raw }

/-- A frame with header 0xF8, power present (adjustment byte 0x10), all
coefficients and cycles 1, pulse counter 1, correct checksum. -/
def frame_F8 : RawData :=
  frame_of [0xF8, 0x5A, 0, 0, 1, 0, 0, 1, 0, 0, 1, 0, 0, 1, 0, 0, 1, 0, 0, 1, 0x10, 0, 1, 23]

/-- A frame with header 0xF2, voltage and power present (adjustment byte 0x50),
all coefficients and cycles 1, pulse counter 1, correct checksum. -/
def frame_F2 : RawData :=
  frame_of [0xF2, 0x5A, 0, 0, 1, 0, 0, 1, 0, 0, 1, 0, 0, 1, 0, 0, 1, 0, 0, 1, 0x50, 0, 1, 87]

/-- A frame with header 0x55, voltage, current and power present (adjustment
byte 0x70), all coefficients and cycles 1, pulse counter 1, correct checksum. -/
def frame_all : RawData :=
  frame_of [0x55, 0x5A, 0, 0, 1, 0, 0, 1, 0, 0, 1, 0, 0, 1, 0, 0, 1, 0, 0, 1, 0x70, 0, 1, 119]

/-- A frame with header 0x55, power present, power coefficient 5000000
(0x4C4B40), power cycle 1000, pulse counter 0, correct checksum. -/
def frame_cf0 : RawData :=
  frame_of [0x55, 0x5A, 0, 0, 1, 0, 0, 1, 0, 0, 1, 0, 0, 1, 0x4C, 0x4B, 0x40, 0, 3, 0xE8,
    0x10, 0, 0, 214]

/-- The same frame as `frame_cf0` with pulse counter 5. -/
def frame_cf5 : RawData :=
  frame_of [0x55, 0x5A, 0, 0, 1, 0, 0, 1, 0, 0, 1, 0, 0, 1, 0x4C, 0x4B, 0x40, 0, 3, 0xE8,
    0x10, 0, 5, 219]

/-- A frame with header 0x55, voltage only (adjustment byte 0x40), voltage
coefficient 1000000 (0x0F4240), voltage cycle 4545 (0x0011C1), the other
coefficients and cycles 1, pulse counter 1, correct checksum. -/
def frame_v220 : RawData :=
  frame_of [0x55, 0x5A, 0x0F, 0x42, 0x40, 0x00, 0x11, 0xC1, 0, 0, 1, 0, 0, 1, 0, 0, 1, 0, 0, 1,
    0x40, 0, 1, 168]

/-- The values handed to `publish_state` of sensor `id`, in order, according
to a trace. -/
def published (id : SensorId) : List Event → List ℚ
  | [] => []
  | Event.publish i v :: tr => if i = id then v :: published id tr else published id tr
  | Event.timeout :: tr => published id tr
  | Event.rx _ :: tr => published id tr
  | Event.reject :: tr => published id tr
  | Event.parse _ :: tr => published id tr

/-- A component with two voltage samples of sum 3 and one pending energy
sample with lifetime total 7 accumulated, and no sensor attached. -/
def unattached : CSE7766Component :=
  { fresh frame_all 0 with
    voltage_acc_ := 3, voltage_counts_ := 2, energy_total_ := 7, energy_total_counts_ := 1 }

/-- The component `unattached` with the voltage and energy sensors attached. -/
def attached : CSE7766Component :=
  { unattached with voltage_sensor_ := true, energy_sensor_ := true }

/-- A component in the middle of a frame: cursor 10, last byte seen at time
0, no warning, accumulators zero. -/
def mid_frame : CSE7766Component :=
  { fresh frame_all 0 with raw_data_index_ := 10 }

/-- One operation on the component: a `loop()` invocation, an `update()`, or
`parse_data_` run on an arbitrary buffer. -/
inductive Op where
  | loop (now : Nat) (avail : List Byte)
  | update
  | parse (raw : RawData)

/-- The effect of one operation. -/
def apply_op (s : CSE7766Component) : Op → CSE7766Component
  | Op.loop now avail => loop s now avail
  | Op.update => update s
  | Op.parse raw => parse_data_ (next_frame s raw)

/-- The effect of a sequence of operations, first one first. -/
def apply_ops (s : CSE7766Component) (ops : List Op) : CSE7766Component :=
  ops.foldl apply_op s

/-- The buffer positions `check_byte_` reads: the cursor position, and at
cursor 23 the positions 2..22 of the checksum loop and position 23. -/
def check_byte_reads (s : CSE7766Component) : List Nat :=
  s.raw_data_index_ :: (if s.raw_data_index_ = 23 then List.range' 2 21 ++ [23] else [])

/-- The buffer positions `get_24_bit_uint_(start_index)` reads. -/
def get_24_bit_uint_reads (start_index : Nat) : List Nat :=
  [start_index, start_index + 1, start_index + 2]

/-- The buffer positions `parse_data_` reads: the two header bytes, the six
24-bit fields, the adjustment byte and the two pulse counter bytes. -/
def parse_data_reads : List Nat :=
  [0, 1] ++ get_24_bit_uint_reads 2 ++ get_24_bit_uint_reads 5 ++ get_24_bit_uint_reads 8 ++
    get_24_bit_uint_reads 11 ++ get_24_bit_uint_reads 14 ++ get_24_bit_uint_reads 17 ++
    [20, 21, 22]

/-- The bytes read, in order, according to a trace. -/
def rx_bytes : List Event → List Byte
  | [] => []
  | Event.rx b :: tr => b :: rx_bytes tr
  | _ :: tr => rx_bytes tr

/-- Every `parse` event of the trace carries a buffer whose header bytes and
checksum are acceptable and whose 24 bytes are the 24 events logged just before
it, all of them reads. -/
def ParsedOK (tr : List Event) : Prop :=
  ∀ (pre : List Event) (buf : List Byte) (post : List Event),
    tr = pre ++ Event.parse buf :: post →
    ∃ f : RawData, buf = raw_list f ∧
      (raw_at f 0 = 0x55 ∨ raw_at f 0 / 16 = 0xF ∨ raw_at f 0 = 0xAA) ∧
      raw_at f 1 = 0x5A ∧
      raw_at f 23 = (∑ i ∈ Finset.Icc 2 22, raw_at f i) % 256 ∧
      (raw_list f).map Event.rx <:+ pre

/-- The framing invariant of `loop()`: the cursor is inside the buffer, the
bytes below the cursor are the last events of the trace (all reads), the
header bytes below the cursor are acceptable, and the trace is `ParsedOK`. -/
def FramingInv (s : CSE7766Component) : Prop :=
  s.raw_data_index_ ≤ 23 ∧
  ((raw_list s.raw_data_).take s.raw_data_index_).map Event.rx <:+ s.trace_ ∧
  (1 ≤ s.raw_data_index_ →
    (raw_at s.raw_data_ 0 = 0x55 ∨ raw_at s.raw_data_ 0 / 16 = 0xF ∨ raw_at s.raw_data_ 0 = 0xAA)) ∧
  (2 ≤ s.raw_data_index_ → raw_at s.raw_data_ 1 = 0x5A) ∧
  ParsedOK s.trace_

/-! ## Arithmetic helpers -/

theorem foldl_add_mod (f : Nat → Nat) (l : List Nat) (a : Nat) :
    l.foldl (fun c i => (c + f i) % 256) a % 256 = (a + (l.map f).sum) % 256 := by
  induction l generalizing a with
  | nil => simp
  | cons x xs ih =>
    simp only [List.foldl_cons, List.map_cons, List.sum_cons]
    rw [ih]; omega

theorem foldl_add_mod_lt (f : Nat → Nat) (l : List Nat) (a : Nat) (ha : a < 256) :
    l.foldl (fun c i => (c + f i) % 256) a < 256 := by
  induction l generalizing a with
  | nil => simpa using ha
  | cons x xs ih =>
    simp only [List.foldl_cons]
    exact ih _ (Nat.mod_lt _ (by decide))

theorem sum_range_eq_sum_Icc (f : Nat → Nat) :
    ((List.range' 2 21).map f).sum = ∑ i ∈ Finset.Icc 2 22, f i := by
  have h : Finset.Icc 2 22 = Finset.Ico 2 23 := by decide
  rw [h, Finset.sum_Ico_eq_sum_range]
  simp [Finset.sum_range_succ, List.range']
  ring

/-- The 8-bit checksum loop computes the sum of positions 2..22 modulo 256. -/
theorem checksum_eq (raw : RawData) :
    checksum raw = (∑ i ∈ Finset.Icc 2 22, raw_at raw i) % 256 := by
  have h1 := foldl_add_mod (raw_at raw) (List.range' 2 21) 0
  have h2 := foldl_add_mod_lt (raw_at raw) (List.range' 2 21) 0 (by decide)
  rw [sum_range_eq_sum_Icc, Nat.zero_add] at h1
  unfold checksum
  rw [← h1, Nat.mod_eq_of_lt h2]

theorem raw_at_lt (raw : RawData) (i : Nat) : raw_at raw i < 256 := by
  unfold raw_at
  split
  · exact Fin.is_lt _
  · decide

set_option maxRecDepth 100000 in
theorem upper_nibble_iff_fin : ∀ b : Fin 256, ((b.val &&& 0xF0) = 0xF0) ↔ b.val / 16 = 0xF := by
  decide

theorem upper_nibble_iff (b : Nat) (hb : b < 256) : ((b &&& 0xF0) = 0xF0) ↔ b / 16 = 0xF :=
  upper_nibble_iff_fin ⟨b, hb⟩

/-! ## The frame validator `check_byte_` -/

theorem check_byte_at_23 (s : CSE7766Component) (h : s.raw_data_index_ = 23) :
    check_byte_ s = true ↔ checksum s.raw_data_ = raw_at s.raw_data_ 23 := by
  simp [check_byte_, h]

/-- C2: with the cursor at position 23, `check_byte_` accepts exactly when
byte 23 equals the sum of bytes 2..22 modulo 256; and a buffer whose residue
(sum of bytes 2..22 minus byte 23, modulo 256) differs from that of an accepted
buffer is rejected. -/
theorem check_byte_checksum (s : CSE7766Component) (h : s.raw_data_index_ = 23) :
    (check_byte_ s = true ↔
      raw_at s.raw_data_ 23 = (∑ i ∈ Finset.Icc 2 22, raw_at s.raw_data_ i) % 256) ∧
    ∀ t : CSE7766Component, t.raw_data_index_ = 23 → check_byte_ t = true →
      (((∑ i ∈ Finset.Icc 2 22, raw_at s.raw_data_ i : Nat) : Int) - raw_at s.raw_data_ 23) % 256 ≠
        (((∑ i ∈ Finset.Icc 2 22, raw_at t.raw_data_ i : Nat) : Int) - raw_at t.raw_data_ 23) % 256 →
      check_byte_ s = false := by
  have key : ∀ u : CSE7766Component, u.raw_data_index_ = 23 →
      (check_byte_ u = true ↔
        raw_at u.raw_data_ 23 = (∑ i ∈ Finset.Icc 2 22, raw_at u.raw_data_ i) % 256) := by
    intro u hu
    rw [check_byte_at_23 u hu, checksum_eq]
    exact eq_comm
  refine ⟨key s h, ?_⟩
  intro t ht hacc hne
  have ht23 := (key t ht).mp hacc
  cases hs : check_byte_ s with
  | false => rfl
  | true =>
    have hs23 := (key s h).mp hs
    exfalso
    apply hne
    omega

theorem check_byte_checksum_witness :
    check_byte_ { fresh (frame_of [0x55, 0x5A, 1, 2, 3, 0, 0, 0, 0, 0, 0, 0, 0, 0, 0, 0, 0, 0, 0,
      0, 0, 0, 0, 7]) 0 with raw_data_index_ := 23 } = false :=
  (check_byte_checksum
    { fresh (frame_of [0x55, 0x5A, 1, 2, 3, 0, 0, 0, 0, 0, 0, 0, 0, 0, 0, 0, 0, 0, 0,
      0, 0, 0, 0, 7]) 0 with raw_data_index_ := 23 } rfl).2
    { fresh (frame_of [0x55, 0x5A, 1, 2, 3, 0, 0, 0, 0, 0, 0, 0, 0, 0, 0, 0, 0, 0, 0,
      0, 0, 0, 0, 6]) 0 with raw_data_index_ := 23 } rfl (by decide) (by decide)

theorem check_byte_accept_low (s : CSE7766Component) (hp : s.raw_data_index_ ≤ 22) :
    check_byte_ s = true ↔
      (s.raw_data_index_ = 0 ∧ (raw_at s.raw_data_ 0 = 0x55 ∨ raw_at s.raw_data_ 0 / 16 = 0xF ∨
        raw_at s.raw_data_ 0 = 0xAA)) ∨
      (s.raw_data_index_ = 1 ∧ raw_at s.raw_data_ 1 = 0x5A) ∨
      (2 ≤ s.raw_data_index_ ∧ s.raw_data_index_ ≤ 22) := by
  rcases Nat.eq_zero_or_pos s.raw_data_index_ with h0 | hpos
  · have hn := upper_nibble_iff _ (raw_at_lt s.raw_data_ 0)
    simp only [check_byte_, h0]
    simp
    rw [hn]
    tauto
  · rcases Nat.eq_or_lt_of_le (Nat.succ_le_of_lt hpos) with h1 | h2
    · have h1 : s.raw_data_index_ = 1 := h1.symm
      simp [check_byte_, h1]
    · have hne0 : s.raw_data_index_ ≠ 0 := by omega
      have hne1 : s.raw_data_index_ ≠ 1 := by omega
      have hne23 : s.raw_data_index_ ≠ 23 := by omega
      simp [check_byte_, hne0, hne1, hne23]
      omega

/-- C3: with the cursor at a position `p` in 0..22, `check_byte_` accepts
exactly when `p = 0` and the byte there is 0x55, has upper nibble 0xF or is
0xAA, or `p = 1` and the byte there is 0x5A, or `2 ≤ p ≤ 22`; and its result is
the same for any two buffers that agree at position `p`. -/
theorem check_byte_header_body (s : CSE7766Component) (p : Nat) (hp : p ≤ 22)
    (h : s.raw_data_index_ = p) :
    (check_byte_ s = true ↔
      (p = 0 ∧ (raw_at s.raw_data_ 0 = 0x55 ∨ raw_at s.raw_data_ 0 / 16 = 0xF ∨
        raw_at s.raw_data_ 0 = 0xAA)) ∨
      (p = 1 ∧ raw_at s.raw_data_ 1 = 0x5A) ∨
      (2 ≤ p ∧ p ≤ 22)) ∧
    ∀ t : CSE7766Component, t.raw_data_index_ = p →
      raw_at t.raw_data_ p = raw_at s.raw_data_ p → check_byte_ t = check_byte_ s := by
  subst h
  constructor
  · exact check_byte_accept_low s hp
  · intro t ht hb
    simp only [check_byte_, ht, hb]
    have hne23 : s.raw_data_index_ ≠ 23 := by omega
    simp [hne23]

theorem check_byte_header_body_witness :
    check_byte_ { fresh (frame_of [0xF2]) 0 with raw_data_index_ := 0 } = true :=
  ((check_byte_header_body { fresh (frame_of [0xF2]) 0 with raw_data_index_ := 0 } 0
    (by decide) rfl).1).mpr (Or.inl ⟨rfl, Or.inr (Or.inl (by decide))⟩)

/-! ## The field decoder `parse_data_` -/

theorem parse_data_of_aborts (s : CSE7766Component) (h : aborts s = true) : parse_data_ s = s := by
  unfold aborts at h
  unfold parse_data_
  split_ifs at h ⊢ <;> simp_all

theorem parse_data_eq_blocks (s : CSE7766Component) (h : aborts s = false) :
    parse_data_ s = parse_current (parse_power (parse_voltage s)) := by
  unfold aborts at h
  unfold parse_data_
  split_ifs at h ⊢ <;> simp_all

/-- The state after `parse_data_` on a frame that is not aborted, field by field. -/
theorem parse_data_of_not_aborts (s : CSE7766Component) (h : aborts s = false) :
    parse_data_ s =
      { s with
        voltage_acc_ := if have_voltage s then s.voltage_acc_ + voltage s else s.voltage_acc_
        voltage_counts_ := if have_voltage s then inc_u32 s.voltage_counts_ else s.voltage_counts_
        power_acc_ := if have_power s then s.power_acc_ + power s else s.power_acc_
        power_counts_ :=
          if have_power s then inc_u32 s.power_counts_
          else if have_current s && have_voltage s then inc_u32 s.power_counts_
          else s.power_counts_
        cf_pulses_last_ := if have_power s then cf_pulses s else s.cf_pulses_last_
        energy_total_ := if have_power s then s.energy_total_ + energy s else s.energy_total_
        energy_total_counts_ :=
          if have_power s then inc_u32 s.energy_total_counts_ else s.energy_total_counts_
        current_acc_ := if have_current s then s.current_acc_ + current s else s.current_acc_
        current_counts_ :=
          if have_current s then inc_u32 s.current_counts_ else s.current_counts_ } := by
  rw [parse_data_eq_blocks s h]
  cases hv : have_voltage s <;> cases hw : have_power s <;> cases hc : have_current s <;>
    simp [parse_current, parse_power, parse_voltage, have_voltage, have_power, have_current,
      adj, power, energy, current, voltage, cf_diff, cf_pulses_base, cf_pulses, get_24_bit_uint_,
      power_cycle_exceeds_range, header1] at * <;>
    simp [*]

theorem cf_pulses_lt (s : CSE7766Component) : cf_pulses s < 65536 := by
  have h1 := raw_at_lt s.raw_data_ 21
  have h2 := raw_at_lt s.raw_data_ 22
  unfold cf_pulses
  rw [Nat.shiftLeft_eq]
  omega

/-- The pulse difference when the stored counter is a non-zero 16-bit value. -/
theorem cf_diff_of_last_ne_zero (s : CSE7766Component) (h0 : s.cf_pulses_last_ ≠ 0)
    (hl : s.cf_pulses_last_ < 65536) :
    cf_diff s = (((cf_pulses s : Int) - (s.cf_pulses_last_ : Int)) % 65536).toNat := by
  have hc := cf_pulses_lt s
  unfold cf_diff cf_pulses_base add_u32 sub_u32
  rw [if_neg h0]
  split_ifs with hlt <;> omega

/-- The pulse difference when the stored counter is 0: the frame counter is
taken as the base and the difference is 0. -/
theorem cf_diff_of_last_eq_zero (s : CSE7766Component) (h0 : s.cf_pulses_last_ = 0) :
    cf_diff s = 0 := by
  unfold cf_diff cf_pulses_base add_u32 sub_u32
  rw [if_pos h0]
  simp

set_option maxRecDepth 100000 in
theorem mask_0xD_iff_fin : ∀ b : Fin 256, (b.val &&& 0xD) ≠ 0 ↔
    (b.val.testBit 0 = true ∨ b.val.testBit 2 = true ∨ b.val.testBit 3 = true) := by
  decide


theorem mask_0xD_iff (b : Nat) (hb : b < 256) : (b &&& 0xD) ≠ 0 ↔
    (b.testBit 0 = true ∨ b.testBit 2 = true ∨ b.testBit 3 = true) :=
  mask_0xD_iff_fin ⟨b, hb⟩

theorem aborts_iff (s : CSE7766Component) :
    aborts s = true ↔
      header1 s = 0xAA ∨ (header1 s / 16 = 0xF ∧ ((header1 s).testBit 0 = true ∨
        (header1 s).testBit 2 = true ∨ (header1 s).testBit 3 = true)) := by
  have hb : header1 s < 256 := raw_at_lt _ _
  rw [← mask_0xD_iff _ hb, ← upper_nibble_iff _ hb]
  unfold aborts
  split_ifs <;> simp_all

/-- C8: when header byte 1 is 0xAA, or has upper nibble 0xF and any of bits 0,
2, 3 set, `parse_data_` returns the component unchanged (all sums, counts,
the energy total, the pending count and the last pulse counter), whatever the
other bytes of the frame are. -/
theorem parse_data_abort_unchanged (s : CSE7766Component)
    (h : header1 s = 0xAA ∨ (header1 s / 16 = 0xF ∧ ((header1 s).testBit 0 = true ∨
      (header1 s).testBit 2 = true ∨ (header1 s).testBit 3 = true))) :
    parse_data_ s = s :=
  parse_data_of_aborts s ((aborts_iff s).mpr h)

theorem parse_data_abort_unchanged_witness :
    parse_data_ (fresh frame_F8 7) = fresh frame_F8 7 :=
  parse_data_abort_unchanged (fresh frame_F8 7) (Or.inr (by decide))

/-- C4 (the claim as stated fails): the frame `frame_F8` has header byte 0xF8,
passes the checksum and has power present, yet `parse_data_` aborts on it and
the power count is not incremented. -/
theorem scenarioB_header_F8_aborts :
    header1 (fresh frame_F8 0) = 0xF8 ∧
    check_byte_ { fresh frame_F8 0 with raw_data_index_ := 23 } = true ∧
    have_power (fresh frame_F8 0) = true ∧
    aborts (fresh frame_F8 0) = true ∧
    (parse_data_ (fresh frame_F8 0)).power_counts_ = (fresh frame_F8 0).power_counts_ ∧
    (parse_data_ (fresh frame_F8 0)).power_counts_ ≠ inc_u32 (fresh frame_F8 0).power_counts_ := by
  have h : parse_data_ (fresh frame_F8 0) = fresh frame_F8 0 :=
    parse_data_of_aborts _ (by decide)
  rw [h]
  refine ⟨by decide, by decide, by decide, by decide, rfl, by decide⟩

set_option maxRecDepth 100000 in
theorem header_F2_of_bits_fin : ∀ b : Fin 256,
    (b.val / 16 = 0xF ∧ b.val.testBit 0 = false ∧ b.val.testBit 2 = false ∧
      b.val.testBit 3 = false ∧ b.val.testBit 1 = true) → b.val = 0xF2 := by
  decide

theorem header_F2_of_bits (b : Nat) (hb : b < 256)
    (h : b / 16 = 0xF ∧ b.testBit 0 = false ∧ b.testBit 2 = false ∧
      b.testBit 3 = false ∧ b.testBit 1 = true) : b = 0xF2 :=
  header_F2_of_bits_fin ⟨b, hb⟩ h

theorem aborts_of_header_F2 (s : CSE7766Component) (h : header1 s = 0xF2) : aborts s = false := by
  unfold aborts
  rw [h]
  decide

theorem exceeds_of_header_F2 (s : CSE7766Component) (h : header1 s = 0xF2) :
    power_cycle_exceeds_range s = true := by
  unfold power_cycle_exceeds_range
  rw [h]
  decide

theorem power_of_exceeds (s : CSE7766Component) (h : power_cycle_exceeds_range s = true) :
    power s = 0 := by
  unfold power
  simp [h]

/-- C4 (amended): a frame with header byte 0xF8 has bit 3 set, so `parse_data_`
aborts and changes nothing.  The header with upper nibble 0xF, bits 0, 2, 3
clear and bit 1 set is 0xF2: there `parse_data_` does not abort,
`power_cycle_exceeds_range` is true, the three decoding blocks run, and when
power is present the power sample is 0 (power count incremented, power sum
unchanged) whatever the power coefficient and cycle are. -/
theorem scenarioB_amended (s : CSE7766Component) :
    (header1 s = 0xF8 → aborts s = true ∧ parse_data_ s = s) ∧
    (header1 s = 0xF2 →
      aborts s = false ∧ power_cycle_exceeds_range s = true ∧
      parse_data_ s = parse_current (parse_power (parse_voltage s)) ∧
      (have_power s = true →
        power s = 0 ∧
        (parse_data_ s).power_counts_ = inc_u32 s.power_counts_ ∧
        (parse_data_ s).power_acc_ = s.power_acc_)) := by
  constructor
  · intro h
    have ha : aborts s = true := by
      unfold aborts
      rw [h]
      decide
    exact ⟨ha, parse_data_of_aborts s ha⟩
  · intro h
    have ha := aborts_of_header_F2 s h
    have he := exceeds_of_header_F2 s h
    refine ⟨ha, he, parse_data_eq_blocks s ha, ?_⟩
    · intro hp
      have hz := power_of_exceeds s he
      rw [parse_data_of_not_aborts s ha]
      simp [hp, hz]

theorem scenarioB_amended_witness :
    (parse_data_ (fresh frame_F8 0) = fresh frame_F8 0) ∧
    (parse_data_ (fresh frame_F2 0)).power_counts_ = inc_u32 (fresh frame_F2 0).power_counts_ ∧
    (parse_data_ (fresh frame_F2 0)).power_acc_ = (fresh frame_F2 0).power_acc_ :=
  ⟨((scenarioB_amended (fresh frame_F8 0)).1 (by decide)).2,
   (((scenarioB_amended (fresh frame_F2 0)).2 (by decide)).2.2.2 (by decide)).2⟩

/-! ### Replacing the header byte -/

theorem raw_at_with_header (s : CSE7766Component) (b : Byte) (i : Nat) (hi : i ≠ 0) :
    raw_at (with_header s b).raw_data_ i = raw_at s.raw_data_ i := by
  unfold raw_at with_header
  split
  · rename_i h
    have hne : (⟨i, h⟩ : Fin 24) ≠ 0 := by
      intro hc
      exact hi (congrArg Fin.val hc)
    simp [Function.update_noteq hne]
  · rfl

theorem locals_with_header (s : CSE7766Component) (b : Byte) :
    have_voltage (with_header s b) = have_voltage s ∧
    have_power (with_header s b) = have_power s ∧
    have_current (with_header s b) = have_current s ∧
    cf_pulses (with_header s b) = cf_pulses s ∧
    cf_diff (with_header s b) = cf_diff s ∧
    energy (with_header s b) = energy s ∧
    voltage (with_header s b) = voltage s := by
  have h : ∀ i, i ≠ 0 → raw_at (with_header s b).raw_data_ i = raw_at s.raw_data_ i :=
    raw_at_with_header s b
  have hl : (with_header s b).cf_pulses_last_ = s.cf_pulses_last_ := rfl
  simp [have_voltage, have_power, have_current, adj, cf_pulses, cf_diff, cf_pulses_base, energy,
    voltage, get_24_bit_uint_, h, hl]

theorem header1_with_header (s : CSE7766Component) (b : Byte) :
    header1 (with_header s b) = b.val := by
  simp [header1, raw_at, with_header]

/-- C9: on a frame whose header byte 1 has upper nibble 0xF, bits 0, 2, 3 clear
and bit 1 set (that is 0xF2), with power present, `parse_data_`
records a power sample of zero (count incremented, sum unchanged); the lifetime
energy total, the last pulse counter and the pending count end up exactly as
for the same frame with header byte 0x55 (total increased by
`cf_diff * power_coeff / 1000000 / 3600`, counter stored, pending count
incremented); and voltage, when present with a non-zero cycle, is accumulated
as coefficient / cycle. -/
theorem power_cycle_exceeds_range_zero_power (s : CSE7766Component)
    (hbits : header1 s / 16 = 0xF ∧ (header1 s).testBit 0 = false ∧
      (header1 s).testBit 2 = false ∧ (header1 s).testBit 3 = false ∧
      (header1 s).testBit 1 = true)
    (hp : have_power s = true) :
    header1 s = 0xF2 ∧
    (parse_data_ s).power_counts_ = inc_u32 s.power_counts_ ∧
    (parse_data_ s).power_acc_ = s.power_acc_ ∧
    (parse_data_ s).energy_total_ = (parse_data_ (with_header s 0x55)).energy_total_ ∧
    (parse_data_ s).energy_total_ =
      s.energy_total_ + (cf_diff s : ℚ) * (get_24_bit_uint_ s 14 : ℚ) / 1000000 / 3600 ∧
    (parse_data_ s).cf_pulses_last_ = (parse_data_ (with_header s 0x55)).cf_pulses_last_ ∧
    (parse_data_ s).cf_pulses_last_ = cf_pulses s ∧
    (parse_data_ s).energy_total_counts_ =
      (parse_data_ (with_header s 0x55)).energy_total_counts_ ∧
    (parse_data_ s).energy_total_counts_ = inc_u32 s.energy_total_counts_ ∧
    (parse_data_ s).voltage_acc_ = (parse_data_ (with_header s 0x55)).voltage_acc_ ∧
    (parse_data_ s).voltage_counts_ = (parse_data_ (with_header s 0x55)).voltage_counts_ ∧
    (have_voltage s = true → get_24_bit_uint_ s 5 ≠ 0 →
      (parse_data_ s).voltage_acc_ =
        s.voltage_acc_ + (get_24_bit_uint_ s 2 : ℚ) / (get_24_bit_uint_ s 5 : ℚ) ∧
      (parse_data_ s).voltage_counts_ = inc_u32 s.voltage_counts_) := by
  have h : header1 s = 0xF2 := header_F2_of_bits _ (raw_at_lt _ _) hbits
  refine ⟨h, ?_⟩
  have ha := aborts_of_header_F2 s h
  have hz := power_of_exceeds s (exceeds_of_header_F2 s h)
  have ha55 : aborts (with_header s 0x55) = false := by
    unfold aborts
    rw [header1_with_header]
    decide
  obtain ⟨l1, l2, l3, l4, l5, l6, l7⟩ := locals_with_header s 0x55
  rw [parse_data_of_not_aborts s ha, parse_data_of_not_aborts _ ha55]
  simp only [l1, l2, l3, l4, l5, l6, l7, hp, hz, if_true, add_zero]
  refine ⟨trivial, trivial, ?_⟩
  have e1 : (with_header s 0x55).energy_total_ = s.energy_total_ := rfl
  have e2 : (with_header s 0x55).energy_total_counts_ = s.energy_total_counts_ := rfl
  have e3 : (with_header s 0x55).voltage_acc_ = s.voltage_acc_ := rfl
  have e4 : (with_header s 0x55).voltage_counts_ = s.voltage_counts_ := rfl
  simp only [e1, e2, e3, e4, true_and, and_true, energy]
  intro hv _
  simp [hv, voltage]

theorem power_cycle_exceeds_range_zero_power_witness :
    (parse_data_ (fresh frame_F2 0)).power_counts_ = inc_u32 (fresh frame_F2 0).power_counts_ ∧
    (parse_data_ (fresh frame_F2 0)).power_acc_ = (fresh frame_F2 0).power_acc_ :=
  ⟨(power_cycle_exceeds_range_zero_power (fresh frame_F2 0) (by decide) (by decide)).2.1,
   (power_cycle_exceeds_range_zero_power (fresh frame_F2 0) (by decide) (by decide)).2.2.1⟩

/-- C10: on a frame that is not aborted, with non-zero power and current
cycles.  If current is present (bit 5), exactly one current sample is recorded;
its value is current coefficient / current cycle when power is present and the
power value of the frame is non-zero, and 0 otherwise; and when voltage is
present and power is absent, a zero power sample is recorded as well (power
count incremented, power sum unchanged).  If current is absent, the current sum
and count are unchanged and the power sum and count are changed by the power
block only. -/
theorem current_sample (s : CSE7766Component) (ha : aborts s = false)
    (hpc : get_24_bit_uint_ s 17 ≠ 0) (hcc : get_24_bit_uint_ s 11 ≠ 0) :
    (power s ≠ 0 ↔
      have_power s = true ∧ power_cycle_exceeds_range s = false ∧ get_24_bit_uint_ s 14 ≠ 0) ∧
    (have_current s = true →
      (parse_data_ s).current_counts_ = inc_u32 s.current_counts_ ∧
      (parse_data_ s).current_acc_ = s.current_acc_ +
        (if have_power s = true ∧ power s ≠ 0 then
          (get_24_bit_uint_ s 8 : ℚ) / (get_24_bit_uint_ s 11 : ℚ)
        else 0) ∧
      (get_24_bit_uint_ s 8 ≠ 0 →
        ((get_24_bit_uint_ s 8 : ℚ) / (get_24_bit_uint_ s 11 : ℚ) ≠ 0)) ∧
      (have_voltage s = true → have_power s = false →
        (parse_data_ s).power_counts_ = inc_u32 s.power_counts_ ∧
        (parse_data_ s).power_acc_ = s.power_acc_)) ∧
    (have_current s = false →
      (parse_data_ s).current_counts_ = s.current_counts_ ∧
      (parse_data_ s).current_acc_ = s.current_acc_ ∧
      (parse_data_ s).power_counts_ =
        (if have_power s = true then inc_u32 s.power_counts_ else s.power_counts_) ∧
      (parse_data_ s).power_acc_ =
        (if have_power s = true then s.power_acc_ + power s else s.power_acc_)) := by
  have hpc' : (get_24_bit_uint_ s 17 : ℚ) ≠ 0 := by exact_mod_cast hpc
  have hcc' : (get_24_bit_uint_ s 11 : ℚ) ≠ 0 := by exact_mod_cast hcc
  have hpow : power s ≠ 0 ↔
      have_power s = true ∧ power_cycle_exceeds_range s = false ∧ get_24_bit_uint_ s 14 ≠ 0 := by
    unfold power
    cases have_power s <;> cases power_cycle_exceeds_range s <;> simp [hpc']
  rw [parse_data_of_not_aborts s ha]
  refine ⟨hpow, ?_, ?_⟩
  · intro hc
    refine ⟨by simp [hc], ?_, ?_, ?_⟩
    · simp only [hc, if_true]
      congr 1
      unfold current
      cases hw : have_power s <;> cases hv : have_voltage s <;> simp [hc, power, hw]
    · intro h8
      have h8' : (get_24_bit_uint_ s 8 : ℚ) ≠ 0 := by exact_mod_cast h8
      exact div_ne_zero h8' hcc'
    · intro hv hw
      simp [hv, hw, hc]
  · intro hc
    simp [hc]

theorem current_sample_witness :
    (parse_data_ (fresh frame_all 0)).current_counts_ = inc_u32 (fresh frame_all 0).current_counts_ :=
  ((current_sample (fresh frame_all 0) (by decide) (by decide) (by decide)).2.1 (by decide)).1

/-! ### The energy totalizer -/

/-- The energy added by the second of two consecutive power-present frames:
the 16-bit difference of the pulse counters times the power coefficient,
scaled, except that a first counter equal to 0 makes the difference 0. -/
theorem energy_second_frame (s1 : CSE7766Component) (raw2 : RawData)
    (h1 : aborts s1 = false) (p1 : have_power s1 = true)
    (h2 : aborts (next_frame (parse_data_ s1) raw2) = false)
    (p2 : have_power (next_frame (parse_data_ s1) raw2) = true) :
    (parse_data_ (next_frame (parse_data_ s1) raw2)).energy_total_ =
      (parse_data_ s1).energy_total_ +
        ((if cf_pulses s1 = 0 then 0
          else (((cf_pulses (next_frame (parse_data_ s1) raw2) : Int) -
            (cf_pulses s1 : Int)) % 65536).toNat : Nat) : ℚ) *
          (get_24_bit_uint_ (next_frame (parse_data_ s1) raw2) 14 : ℚ) / 1000000 / 3600 := by
  have hl : (next_frame (parse_data_ s1) raw2).cf_pulses_last_ = cf_pulses s1 := by
    show (parse_data_ s1).cf_pulses_last_ = cf_pulses s1
    rw [parse_data_of_not_aborts s1 h1]
    simp [p1]
  have he : (next_frame (parse_data_ s1) raw2).energy_total_ = (parse_data_ s1).energy_total_ :=
    rfl
  have hd : cf_diff (next_frame (parse_data_ s1) raw2) =
      (if cf_pulses s1 = 0 then 0
        else (((cf_pulses (next_frame (parse_data_ s1) raw2) : Int) -
          (cf_pulses s1 : Int)) % 65536).toNat) := by
    by_cases h0 : cf_pulses s1 = 0
    · rw [if_pos h0]
      exact cf_diff_of_last_eq_zero _ (by rw [hl]; exact h0)
    · rw [if_neg h0, cf_diff_of_last_ne_zero _ (by rw [hl]; exact h0)
        (by rw [hl]; exact cf_pulses_lt s1), hl]
  conv_lhs => rw [parse_data_of_not_aborts _ h2]
  simp only [p2, if_true, he, energy, hd]

/-- C5 (evaluated at the failing input): two power-present frames that pass
the checksum, with power coefficient 5000000 and pulse counters 0 then 5.  The
second frame adds 0 to the lifetime energy total, while
`((5 - 0) mod 65536) * 5000000 / 1000000 / 3600` is not 0. -/
theorem energy_lost_after_zero_counter :
    check_byte_ { fresh frame_cf0 0 with raw_data_index_ := 23 } = true ∧
    check_byte_ { fresh frame_cf5 0 with raw_data_index_ := 23 } = true ∧
    have_power (fresh frame_cf0 0) = true ∧
    have_power (next_frame (parse_data_ (fresh frame_cf0 0)) frame_cf5) = true ∧
    cf_pulses (fresh frame_cf0 0) = 0 ∧
    cf_pulses (next_frame (parse_data_ (fresh frame_cf0 0)) frame_cf5) = 5 ∧
    get_24_bit_uint_ (next_frame (parse_data_ (fresh frame_cf0 0)) frame_cf5) 14 = 5000000 ∧
    (parse_data_ (next_frame (parse_data_ (fresh frame_cf0 0)) frame_cf5)).energy_total_ =
      (parse_data_ (fresh frame_cf0 0)).energy_total_ ∧
    (((((5 : Int) - 0) % 65536).toNat : Nat) : ℚ) * 5000000 / 1000000 / 3600 ≠ 0 := by
  have h := energy_second_frame (fresh frame_cf0 0) frame_cf5 (by decide) (by decide)
    (by decide) (by decide)
  have h0 : cf_pulses (fresh frame_cf0 0) = 0 := by decide
  rw [if_pos h0] at h
  refine ⟨by decide, by decide, by decide, by decide, h0, by decide, by decide, ?_, ?_⟩
  · rw [h]
    simp
  · norm_num

/-! ## The frame assembler `loop` -/

/-- What `parse_data_` never touches: buffer, cursor, time stamp, warning flag,
sensors and trace. -/
theorem parse_data_frame (s : CSE7766Component) :
    (parse_data_ s).raw_data_ = s.raw_data_ ∧
    (parse_data_ s).raw_data_index_ = s.raw_data_index_ ∧
    (parse_data_ s).last_transmission_ = s.last_transmission_ ∧
    (parse_data_ s).warning_ = s.warning_ ∧
    (parse_data_ s).trace_ = s.trace_ := by
  cases h : aborts s
  · rw [parse_data_of_not_aborts s h]
    exact ⟨rfl, rfl, rfl, rfl, rfl⟩
  · rw [parse_data_of_aborts s h]
    exact ⟨rfl, rfl, rfl, rfl, rfl⟩

theorem loop_body_of_reject (s : CSE7766Component) (b : Byte)
    (h : check_byte_ (read_byte s b) = false) :
    loop_body s b =
      { s with raw_data_ := raw_store s.raw_data_ s.raw_data_index_ b
               raw_data_index_ := 0
               warning_ := true
               trace_ := s.trace_ ++ [Event.rx b, Event.reject] } := by
  unfold loop_body
  simp only [h, Bool.not_false, if_true]
  simp [read_byte]

theorem loop_body_of_accept (s : CSE7766Component) (b : Byte)
    (h : check_byte_ (read_byte s b) = true) (hi : s.raw_data_index_ ≠ 23) :
    loop_body s b =
      { s with raw_data_ := raw_store s.raw_data_ s.raw_data_index_ b
               raw_data_index_ := (s.raw_data_index_ + 1) % 24
               trace_ := s.trace_ ++ [Event.rx b] } := by
  have hi2 : (read_byte s b).raw_data_index_ ≠ 23 := hi
  unfold loop_body
  simp only [h, hi2, if_false, Bool.not_true, Bool.false_eq_true]
  rfl

theorem loop_body_of_complete (s : CSE7766Component) (b : Byte)
    (h : check_byte_ (read_byte s b) = true) (hi : s.raw_data_index_ = 23) :
    loop_body s b =
      { parse_data_ (log_parse (read_byte s b)) with
        warning_ := false
        raw_data_index_ := 0 } := by
  have hi2 : (read_byte s b).raw_data_index_ = 23 := hi
  have hidx : (parse_data_ (log_parse (read_byte s b))).raw_data_index_ = 23 := by
    rw [(parse_data_frame _).2.1]
    exact hi
  unfold loop_body
  simp only [h, hi2, if_true, if_false, Bool.not_true, Bool.false_eq_true, hidx]

theorem check_byte_false_index (s : CSE7766Component) (h : check_byte_ s = false) :
    s.raw_data_index_ = 0 ∨ s.raw_data_index_ = 1 ∨ s.raw_data_index_ = 23 := by
  by_contra hc
  push_neg at hc
  simp [check_byte_, hc.1, hc.2.1, hc.2.2] at h

theorem rx_bytes_append (t1 t2 : List Event) : rx_bytes (t1 ++ t2) = rx_bytes t1 ++ rx_bytes t2 := by
  induction t1 with
  | nil => rfl
  | cons e t ih => cases e <;> simp [rx_bytes, ih]

theorem rx_bytes_loop_body (s : CSE7766Component) (b : Byte) :
    rx_bytes (loop_body s b).trace_ = rx_bytes s.trace_ ++ [b] := by
  cases h : check_byte_ (read_byte s b)
  · rw [loop_body_of_reject s b h]
    simp [rx_bytes_append, rx_bytes]
  · by_cases hi : s.raw_data_index_ = 23
    · rw [loop_body_of_complete s b h hi]
      have ht := (parse_data_frame (log_parse (read_byte s b))).2.2.2.2
      simp only [ht]
      simp [log_parse, read_byte, rx_bytes_append, rx_bytes]
    · rw [loop_body_of_accept s b h hi]
      simp [rx_bytes_append, rx_bytes]

/-- The `while` loop reads every available byte, whatever happens to them. -/
theorem rx_bytes_foldl (avail : List Byte) (s : CSE7766Component) :
    rx_bytes (avail.foldl loop_body s).trace_ = rx_bytes s.trace_ ++ avail := by
  induction avail generalizing s with
  | nil => simp
  | cons b bs ih =>
    rw [List.foldl_cons, ih, rx_bytes_loop_body]
    simp

/-- Whatever the outcome, the byte read is stored at the cursor. -/
theorem loop_body_raw (s : CSE7766Component) (b : Byte) :
    (loop_body s b).raw_data_ = raw_store s.raw_data_ s.raw_data_index_ b := by
  cases h : check_byte_ (read_byte s b)
  · rw [loop_body_of_reject s b h]
  · by_cases hi : s.raw_data_index_ = 23
    · rw [loop_body_of_complete s b h hi]
      exact (parse_data_frame (log_parse (read_byte s b))).1
    · rw [loop_body_of_accept s b h hi]

theorem raw_at_store_same (raw : RawData) (i : Nat) (hi : i < 24) (b : Byte) :
    raw_at (raw_store raw i b) i = b.val := by
  simp [raw_at, raw_store, hi]

theorem raw_at_store_other (raw : RawData) (i j : Nat) (hij : j ≠ i) (b : Byte) :
    raw_at (raw_store raw i b) j = raw_at raw j := by
  unfold raw_at raw_store
  by_cases hi : i < 24
  · by_cases hj : j < 24
    · have hne : (⟨j, hj⟩ : Fin 24) ≠ ⟨i, hi⟩ := by
        intro hc
        exact hij (congrArg Fin.val hc)
      simp [hi, hj, Function.update_noteq hne]
    · simp [hj]
  · simp [hi]

/-- C6: a byte that fails `check_byte_` at the cursor (which is then 0, 1 or
23) is stored, the cursor is set to 0 and the warning is set; nothing else
changes (the trace gains the read and the reject, no call of `parse_data_`, and
every accumulator field keeps its value); the `while` loop goes on with the
remaining bytes, reads all of them, and the next byte is stored at position
0. -/
theorem loop_rejected_byte (s : CSE7766Component) (b : Byte) (rest : List Byte)
    (h : check_byte_ (read_byte s b) = false) :
    (s.raw_data_index_ = 0 ∨ s.raw_data_index_ = 1 ∨ s.raw_data_index_ = 23) ∧
    loop_body s b =
      { s with raw_data_ := raw_store s.raw_data_ s.raw_data_index_ b
               raw_data_index_ := 0
               warning_ := true
               trace_ := s.trace_ ++ [Event.rx b, Event.reject] } ∧
    (b :: rest).foldl loop_body s = rest.foldl loop_body (loop_body s b) ∧
    rx_bytes ((b :: rest).foldl loop_body s).trace_ = rx_bytes s.trace_ ++ b :: rest ∧
    ∀ b2 : Byte, raw_at (loop_body (loop_body s b) b2).raw_data_ 0 = b2.val := by
  have hr := loop_body_of_reject s b h
  refine ⟨check_byte_false_index (read_byte s b) h, hr, rfl, rx_bytes_foldl _ _, ?_⟩
  intro b2
  have h0 : (loop_body s b).raw_data_index_ = 0 := by rw [hr]
  rw [loop_body_raw, h0]
  exact raw_at_store_same _ 0 (by decide) b2

theorem loop_rejected_byte_witness :
    loop_body (fresh frame_F8 0) 0 =
      { fresh frame_F8 0 with
        raw_data_ := raw_store (fresh frame_F8 0).raw_data_ (fresh frame_F8 0).raw_data_index_ 0
        raw_data_index_ := 0
        warning_ := true
        trace_ := (fresh frame_F8 0).trace_ ++ [Event.rx 0, Event.reject] } :=
  (loop_rejected_byte (fresh frame_F8 0) 0 [] (by decide)).2.1

/-! ### Feeding one good frame -/

theorem take_ofFn_congr {α : Type} {n : Nat} (g g2 : Fin n → α) (k : Nat)
    (h : ∀ i : Fin n, i.val < k → g i = g2 i) :
    (List.ofFn g).take k = (List.ofFn g2).take k := by
  apply List.ext_getElem
  · simp
  · intro i h1 h2
    simp only [List.length_take, List.length_ofFn] at h1
    simp only [List.getElem_take, List.getElem_ofFn]
    exact h ⟨i, by omega⟩ (by simp; omega)

theorem take_succ_ofFn {α : Type} {n : Nat} (g : Fin n → α) (k : Nat) (hk : k < n) :
    (List.ofFn g).take (k + 1) = (List.ofFn g).take k ++ [g ⟨k, hk⟩] := by
  rw [List.take_succ]
  simp [List.getElem?_ofFn, hk]

/-- The buffer after the first `n` bytes of `f` have been stored over `raw`. -/
theorem raw_store_mix (raw f : RawData) (n : Nat) (hn : n < 24) :
    raw_store (fun i => if i.val < n then f i else raw i) n (f ⟨n, hn⟩) =
      (fun i => if i.val < n + 1 then f i else raw i) := by
  funext i
  unfold raw_store
  rw [dif_pos hn]
  by_cases hi : i = ⟨n, hn⟩
  · subst hi
    simp
  · have hv : i.val ≠ n := fun hc => hi (Fin.ext hc)
    rw [Function.update_noteq hi]
    by_cases hlt : i.val < n
    · simp [hlt, Nat.lt_succ_of_lt hlt]
    · have : ¬ i.val < n + 1 := by omega
      simp [hlt, this]

/-- Feeding the first `n ≤ 23` bytes of an acceptable frame `f` to the loop
body, starting with the cursor at 0: they are stored at positions `0..n-1`, the
cursor is `n`, and nothing else changes but the trace. -/
theorem foldl_frame_prefix (t : CSE7766Component) (f : RawData) (h0 : t.raw_data_index_ = 0)
    (hh : raw_at f 0 = 0x55 ∨ raw_at f 0 / 16 = 0xF ∨ raw_at f 0 = 0xAA)
    (h1 : raw_at f 1 = 0x5A) (n : Nat) (hn : n ≤ 23) :
    ((raw_list f).take n).foldl loop_body t =
      { t with raw_data_ := fun i => if i.val < n then f i else t.raw_data_ i
               raw_data_index_ := n
               trace_ := t.trace_ ++ ((raw_list f).take n).map Event.rx } := by
  induction n with
  | zero =>
    cases t
    simp at h0
    simp [h0]
  | succ n ih =>
    have hn24 : n < 24 := by omega
    have ih2 := ih (by omega)
    unfold raw_list at ih2 ⊢
    rw [take_succ_ofFn f n hn24, List.foldl_append, ih2]
    simp only [List.foldl_cons, List.foldl_nil]
    have hacc : check_byte_ (read_byte
        { t with raw_data_ := fun i => if i.val < n then f i else t.raw_data_ i
                 raw_data_index_ := n
                 trace_ := t.trace_ ++ ((List.ofFn f).take n).map Event.rx } (f ⟨n, hn24⟩)) = true := by
      rw [check_byte_accept_low _ (by show n ≤ 22; omega)]
      simp only [read_byte]
      rw [raw_store_mix t.raw_data_ f n hn24]
      rcases Nat.eq_zero_or_pos n with hz | hpos
      · left
        subst hz
        refine ⟨rfl, ?_⟩
        have : raw_at (fun i : Fin 24 => if i.val < 0 + 1 then f i else t.raw_data_ i) 0 =
            raw_at f 0 := by
          simp [raw_at]
        rw [this]
        exact hh
      · right
        rcases Nat.eq_or_lt_of_le (Nat.succ_le_of_lt hpos) with he | hlt
        · left
          have he : n = 1 := he.symm
          subst he
          refine ⟨rfl, ?_⟩
          have : raw_at (fun i : Fin 24 => if i.val < 1 + 1 then f i else t.raw_data_ i) 1 =
              raw_at f 1 := by
            simp [raw_at]
          rw [this]
          exact h1
        · right
          show 2 ≤ n ∧ n ≤ 22
          omega
    rw [loop_body_of_accept _ _ hacc (by show n ≠ 23; omega)]
    simp only [raw_store_mix t.raw_data_ f n hn24, List.map_append, List.map_cons, List.map_nil,
      List.append_assoc]
    have hm : (n + 1) % 24 = n + 1 := Nat.mod_eq_of_lt (by omega)
    rw [hm]

theorem raw_list_eq_take_append (f : RawData) :
    raw_list f = (raw_list f).take 23 ++ [f ⟨23, by decide⟩] := by
  unfold raw_list
  rw [← take_succ_ofFn f 23 (by decide), List.take_of_length_le (by simp)]

theorem raw_store_last (raw f : RawData) :
    raw_store (fun i => if i.val < 23 then f i else raw i) 23 (f ⟨23, by decide⟩) = f := by
  rw [raw_store_mix raw f 23 (by decide)]
  funext i
  have hi : i.val < 23 + 1 := i.isLt
  simp [hi]

/-- Feeding the 24 bytes of an acceptable frame `f` to the loop body, starting
with the cursor at 0: `parse_data_` is called once, after the 24th byte, on the
buffer `f`; then the warning is cleared and the cursor is 0. -/
theorem foldl_good_frame (t : CSE7766Component) (f : RawData) (h0 : t.raw_data_index_ = 0)
    (hh : raw_at f 0 = 0x55 ∨ raw_at f 0 / 16 = 0xF ∨ raw_at f 0 = 0xAA)
    (h1 : raw_at f 1 = 0x5A)
    (hc : raw_at f 23 = (∑ i ∈ Finset.Icc 2 22, raw_at f i) % 256) :
    (raw_list f).foldl loop_body t =
      { parse_data_
          { t with raw_data_ := f
                   raw_data_index_ := 23
                   trace_ := t.trace_ ++ (raw_list f).map Event.rx ++
                     [Event.parse (raw_list f)] } with
        warning_ := false
        raw_data_index_ := 0 } := by
  have hpre := foldl_frame_prefix t f h0 hh h1 23 (by decide)
  have hsplit := raw_list_eq_take_append f
  have hfold : (raw_list f).foldl loop_body t =
      loop_body (((raw_list f).take 23).foldl loop_body t) (f ⟨23, by decide⟩) := by
    conv_lhs => rw [hsplit]
    rw [List.foldl_append, List.foldl_cons, List.foldl_nil]
  rw [hfold, hpre]
  have hacc : check_byte_ (read_byte
      { t with raw_data_ := fun i => if i.val < 23 then f i else t.raw_data_ i
               raw_data_index_ := 23
               trace_ := t.trace_ ++ ((raw_list f).take 23).map Event.rx }
      (f ⟨23, by decide⟩)) = true := by
    rw [check_byte_at_23 _ rfl, checksum_eq]
    simp only [read_byte]
    rw [raw_store_last]
    exact hc.symm
  rw [loop_body_of_complete _ _ hacc rfl]
  simp only [log_parse, read_byte]
  rw [raw_store_last]
  have ht : t.trace_ ++ ((raw_list f).take 23).map Event.rx ++ [Event.rx (f ⟨23, by decide⟩)] =
      t.trace_ ++ (raw_list f).map Event.rx := by
    conv_rhs => rw [hsplit]
    simp
  rw [ht]

theorem loop_good_frame_eq (s : CSE7766Component) (now : Nat) (f : RawData)
    (h0 : s.raw_data_index_ = 0)
    (hh : raw_at f 0 = 0x55 ∨ raw_at f 0 / 16 = 0xF ∨ raw_at f 0 = 0xAA)
    (h1 : raw_at f 1 = 0x5A)
    (hc : raw_at f 23 = (∑ i ∈ Finset.Icc 2 22, raw_at f i) % 256) :
    loop s now (raw_list f) =
      { parse_data_
          { s with raw_data_ := f
                   raw_data_index_ := 23
                   last_transmission_ := now
                   trace_ := s.trace_ ++
                     (if sub_u32 now s.last_transmission_ ≥ 500 then [Event.timeout] else []) ++
                     (raw_list f).map Event.rx ++ [Event.parse (raw_list f)] } with
        warning_ := false
        raw_data_index_ := 0 } := by
  have hlen : (raw_list f).length ≠ 0 := by simp [raw_list]
  unfold loop
  simp only [hlen, if_false]
  by_cases hto : sub_u32 now s.last_transmission_ ≥ 500
  · simp only [hto, if_true]
    rw [foldl_good_frame _ f rfl hh h1 hc]
  · simp only [hto, if_false]
    rw [foldl_good_frame { s with last_transmission_ := now } f h0 hh h1 hc]
    simp

/-- C7: when the cursor is 0 and the 24 bytes available are an acceptable
frame `f` (good header bytes and checksum), one `loop()` invocation calls
`parse_data_` exactly once, after the 24 reads, on the buffer `f`; afterwards
the warning is cleared (whether or not `parse_data_` aborted) and the cursor is
0. -/
theorem loop_dispatches_good_frame (s : CSE7766Component) (now : Nat) (f : RawData)
    (h0 : s.raw_data_index_ = 0)
    (hh : raw_at f 0 = 0x55 ∨ raw_at f 0 / 16 = 0xF ∨ raw_at f 0 = 0xAA)
    (h1 : raw_at f 1 = 0x5A)
    (hc : raw_at f 23 = (∑ i ∈ Finset.Icc 2 22, raw_at f i) % 256) :
    loop s now (raw_list f) =
      { parse_data_
          { s with raw_data_ := f
                   raw_data_index_ := 23
                   last_transmission_ := now
                   trace_ := s.trace_ ++
                     (if sub_u32 now s.last_transmission_ ≥ 500 then [Event.timeout] else []) ++
                     (raw_list f).map Event.rx ++ [Event.parse (raw_list f)] } with
        warning_ := false
        raw_data_index_ := 0 } ∧
    (loop s now (raw_list f)).trace_ =
      s.trace_ ++ (if sub_u32 now s.last_transmission_ ≥ 500 then [Event.timeout] else []) ++
        (raw_list f).map Event.rx ++ [Event.parse (raw_list f)] ∧
    (loop s now (raw_list f)).raw_data_ = f ∧
    (loop s now (raw_list f)).warning_ = false ∧
    (loop s now (raw_list f)).raw_data_index_ = 0 := by
  have h := loop_good_frame_eq s now f h0 hh h1 hc
  refine ⟨h, ?_, ?_, ?_, ?_⟩
  · rw [h]
    exact (parse_data_frame _).2.2.2.2
  · rw [h]
    exact (parse_data_frame _).1
  · rw [h]
  · rw [h]

theorem loop_dispatches_good_frame_witness :
    (loop { fresh frame_all 0 with warning_ := true } 0 (raw_list frame_F8)).warning_ = false ∧
    (loop { fresh frame_all 0 with warning_ := true } 0 (raw_list frame_F8)).raw_data_index_ = 0 :=
  (loop_dispatches_good_frame { fresh frame_all 0 with warning_ := true } 0 frame_F8 rfl
    (Or.inr (Or.inl (by decide))) (by decide) (by rw [← checksum_eq]; decide)).2.2.2

/-! ### The framing invariant -/

theorem snoc_split {α : Type} (tr pre post : List α) (e x : α)
    (h : tr ++ [e] = pre ++ x :: post) :
    (post = [] ∧ e = x ∧ tr = pre) ∨ ∃ post2, post = post2 ++ [e] ∧ tr = pre ++ x :: post2 := by
  rcases List.eq_nil_or_concat post with hp | ⟨post2, y, hp⟩
  · subst hp
    left
    have h2 : tr ++ [e] = pre ++ [x] := h
    have h3 := List.append_inj' h2 rfl
    simp at h3
    exact ⟨rfl, h3.2, h3.1⟩
  · subst hp
    right
    have h2 : tr ++ [e] = (pre ++ x :: post2) ++ [y] := by simpa using h
    have h3 := List.append_inj' h2 rfl
    simp at h3
    refine ⟨post2, ?_, h3.1⟩
    rw [h3.2, List.concat_eq_append]

theorem parsedOK_nil : ParsedOK [] := by
  intro pre buf post h
  simp at h

theorem parsedOK_snoc_other (tr : List Event) (e : Event) (h : ParsedOK tr)
    (he : ∀ buf, e ≠ Event.parse buf) : ParsedOK (tr ++ [e]) := by
  intro pre buf post hsplit
  rcases snoc_split tr pre post e (Event.parse buf) hsplit with ⟨_, h2, _⟩ | ⟨post2, _, h3⟩
  · exact absurd h2 (he buf)
  · exact h pre buf post2 h3

theorem parsedOK_snoc_parse (tr : List Event) (f : RawData) (h : ParsedOK tr)
    (hh : raw_at f 0 = 0x55 ∨ raw_at f 0 / 16 = 0xF ∨ raw_at f 0 = 0xAA)
    (h1 : raw_at f 1 = 0x5A)
    (hc : raw_at f 23 = (∑ i ∈ Finset.Icc 2 22, raw_at f i) % 256)
    (hs : (raw_list f).map Event.rx <:+ tr) :
    ParsedOK (tr ++ [Event.parse (raw_list f)]) := by
  intro pre buf post hsplit
  rcases snoc_split tr pre post _ (Event.parse buf) hsplit with ⟨_, h2, h3⟩ | ⟨post2, _, h3⟩
  · have hb : raw_list f = buf := by
      injection h2
    subst h3
    exact ⟨f, hb.symm, hh, h1, hc, hs⟩
  · exact h pre buf post2 h3

theorem take_store (raw : RawData) (k : Nat) (hk : k < 24) (b : Byte) :
    (raw_list (raw_store raw k b)).take (k + 1) = (raw_list raw).take k ++ [b] := by
  unfold raw_list raw_store
  rw [dif_pos hk, take_succ_ofFn _ k hk, Function.update_same]
  congr 1
  apply take_ofFn_congr
  intro i hi
  have hne : i ≠ ⟨k, hk⟩ := by
    intro hc
    rw [hc] at hi
    exact Nat.lt_irrefl _ hi
  exact Function.update_noteq hne _ _

theorem suffix_snoc {α : Type} (l tr : List α) (x : α) (h : l <:+ tr) :
    l ++ [x] <:+ tr ++ [x] := by
  obtain ⟨t, ht⟩ := h
  exact ⟨t, by rw [← ht, List.append_assoc]⟩

theorem framingInv_of_cursor_zero (s : CSE7766Component) (h0 : s.raw_data_index_ = 0)
    (hok : ParsedOK s.trace_) : FramingInv s := by
  unfold FramingInv
  rw [h0]
  refine ⟨by decide, by simp, ?_, ?_, hok⟩
  · intro hc
    omega
  · intro hc
    omega

theorem framingInv_loop_body (s : CSE7766Component) (b : Byte) (h : FramingInv s) :
    FramingInv (loop_body s b) := by
  obtain ⟨hk, hsuf, hh, h1, hok⟩ := h
  have hk24 : s.raw_data_index_ < 24 := by omega
  have hokrx : ParsedOK (s.trace_ ++ [Event.rx b]) :=
    parsedOK_snoc_other _ _ hok (by intro buf hc; cases hc)
  cases hchk : check_byte_ (read_byte s b)
  · rw [loop_body_of_reject s b hchk]
    apply framingInv_of_cursor_zero _ rfl
    have hr := parsedOK_snoc_other _ Event.reject hokrx (by intro buf hc; cases hc)
    simpa using hr
  · by_cases hi : s.raw_data_index_ = 23
    · rw [loop_body_of_complete s b hchk hi]
      apply framingInv_of_cursor_zero _ rfl
      · show ParsedOK (parse_data_ (log_parse (read_byte s b))).trace_
        rw [(parse_data_frame _).2.2.2.2]
        show ParsedOK (s.trace_ ++ [Event.rx b] ++
          [Event.parse (raw_list (raw_store s.raw_data_ s.raw_data_index_ b))])
        rw [hi]
        apply parsedOK_snoc_parse _ _ hokrx
        · rw [raw_at_store_other _ 23 0 (by decide)]
          exact hh (by omega)
        · rw [raw_at_store_other _ 23 1 (by decide)]
          exact h1 (by omega)
        · have hc := (check_byte_at_23 (read_byte s b) hi).mp hchk
          rw [checksum_eq] at hc
          simp only [read_byte, hi] at hc
          exact hc.symm
        · have ht := take_store s.raw_data_ 23 (by decide) b
          rw [List.take_of_length_le (by simp [raw_list])] at ht
          rw [ht, List.map_append]
          rw [hi] at hsuf
          exact suffix_snoc _ _ _ hsuf
    · rw [loop_body_of_accept s b hchk hi]
      have hm : (s.raw_data_index_ + 1) % 24 = s.raw_data_index_ + 1 :=
        Nat.mod_eq_of_lt (by omega)
      have hlow : (read_byte s b).raw_data_index_ ≤ 22 := by
        show s.raw_data_index_ ≤ 22
        omega
      have hacc := (check_byte_accept_low (read_byte s b) hlow).mp hchk
      simp only [read_byte] at hacc
      refine ⟨?_, ?_, ?_, ?_, hokrx⟩
      · show (s.raw_data_index_ + 1) % 24 ≤ 23
        omega
      · show ((raw_list (raw_store s.raw_data_ s.raw_data_index_ b)).take
          ((s.raw_data_index_ + 1) % 24)).map Event.rx <:+ s.trace_ ++ [Event.rx b]
        rw [hm, take_store _ _ hk24, List.map_append]
        exact suffix_snoc _ _ _ hsuf
      · intro _
        show raw_at (raw_store s.raw_data_ s.raw_data_index_ b) 0 = 0x55 ∨
          raw_at (raw_store s.raw_data_ s.raw_data_index_ b) 0 / 16 = 0xF ∨
          raw_at (raw_store s.raw_data_ s.raw_data_index_ b) 0 = 0xAA
        rcases Nat.eq_zero_or_pos s.raw_data_index_ with hz | hpos
        · rcases hacc with ⟨_, hgood⟩ | ⟨h1', _⟩ | ⟨h2', _⟩
          · exact hgood
          · omega
          · omega
        · rw [raw_at_store_other _ _ 0 (by omega)]
          exact hh hpos
      · intro hge
        show raw_at (raw_store s.raw_data_ s.raw_data_index_ b) 1 = 0x5A
        have hge2 : 2 ≤ s.raw_data_index_ + 1 := by
          have : (s.raw_data_index_ + 1) % 24 = s.raw_data_index_ + 1 := hm
          simpa [this] using hge
        rcases Nat.eq_or_lt_of_le (show 1 ≤ s.raw_data_index_ by omega) with he | hlt
        · rcases hacc with ⟨h0', _⟩ | ⟨_, hgood⟩ | ⟨h2', _⟩
          · omega
          · exact hgood
          · omega
        · rw [raw_at_store_other _ _ 1 (by omega)]
          exact h1 (by omega)

theorem framingInv_foldl (avail : List Byte) (s : CSE7766Component) (h : FramingInv s) :
    FramingInv (avail.foldl loop_body s) := by
  induction avail generalizing s with
  | nil => exact h
  | cons b bs ih => exact ih _ (framingInv_loop_body s b h)

theorem framingInv_loop (s : CSE7766Component) (now : Nat) (avail : List Byte)
    (h : FramingInv s) : FramingInv (loop s now avail) := by
  have hto : ∀ t : CSE7766Component, FramingInv t →
      FramingInv { t with last_transmission_ := now } := fun _ ht => ht
  unfold loop
  by_cases hc : sub_u32 now s.last_transmission_ ≥ 500
  · have h1 : FramingInv { s with raw_data_index_ := 0, trace_ := s.trace_ ++ [Event.timeout] } := by
      apply framingInv_of_cursor_zero _ rfl
      exact parsedOK_snoc_other _ _ h.2.2.2.2 (by intro buf hc; cases hc)
    simp only [hc, if_true]
    split_ifs
    · exact h1
    · exact framingInv_foldl _ _ (hto _ h1)
  · simp only [hc, if_false]
    split_ifs
    · exact h
    · exact framingInv_foldl _ _ (hto _ h)

theorem framingInv_run (calls : List (Nat × List Byte)) (s : CSE7766Component)
    (h : FramingInv s) : FramingInv (run s calls) := by
  induction calls generalizing s with
  | nil => exact h
  | cons c cs ih => exact ih _ (framingInv_loop s c.1 c.2 h)

/-- C1: start with the cursor at 0 and an empty trace and run any sequence of
`loop()` invocations, with any times and any bytes.  Every call of
`parse_data_` (every `parse` event of the trace) is made on a buffer `f` whose
byte 0 is 0x55, 0xAA or has upper nibble 0xF, whose byte 1 is 0x5A, whose byte
23 is the sum of bytes 2..22 modulo 256, and whose 24 bytes are exactly the 24
events logged just before the call, in order: 24 reads, with no reject and no
timeout among them. -/
theorem parse_only_on_validated_frame (s0 : CSE7766Component)
    (calls : List (Nat × List Byte)) (h0 : s0.raw_data_index_ = 0) (ht : s0.trace_ = [])
    (pre : List Event) (buf : List Byte) (post : List Event)
    (hsplit : (run s0 calls).trace_ = pre ++ Event.parse buf :: post) :
    ∃ f : RawData, buf = raw_list f ∧
      (raw_at f 0 = 0x55 ∨ raw_at f 0 / 16 = 0xF ∨ raw_at f 0 = 0xAA) ∧
      raw_at f 1 = 0x5A ∧
      raw_at f 23 = (∑ i ∈ Finset.Icc 2 22, raw_at f i) % 256 ∧
      (raw_list f).map Event.rx <:+ pre := by
  have hinit : FramingInv s0 :=
    framingInv_of_cursor_zero s0 h0 (by rw [ht]; exact parsedOK_nil)
  exact (framingInv_run calls s0 hinit).2.2.2.2 pre buf post hsplit

set_option maxRecDepth 100000 in
theorem parse_only_on_validated_frame_witness :
    ∃ f : RawData, raw_list frame_all = raw_list f ∧
      (raw_at f 0 = 0x55 ∨ raw_at f 0 / 16 = 0xF ∨ raw_at f 0 = 0xAA) ∧
      raw_at f 1 = 0x5A ∧
      raw_at f 23 = (∑ i ∈ Finset.Icc 2 22, raw_at f i) % 256 ∧
      (raw_list f).map Event.rx <:+ (raw_list frame_all).map Event.rx :=
  parse_only_on_validated_frame (fresh frame_F8 0) [(0, raw_list frame_all)] rfl rfl
    ((raw_list frame_all).map Event.rx) (raw_list frame_all) [] (by decide)

/-! ## Decoded fields and the energy totalizer, continued -/

/-- Three bytes combined by shifts and ors are the 24-bit big-endian number. -/
theorem shift_or_eq (a b c : Nat) (hb : b < 256) (hc : c < 256) :
    (a <<< 16 ||| b <<< 8 ||| c) = 65536 * a + 256 * b + c := by
  have h1 : a <<< 16 ||| b <<< 8 = 2 ^ 16 * a + 2 ^ 8 * b := by
    rw [Nat.shiftLeft_eq, Nat.shiftLeft_eq, Nat.mul_comm a, Nat.mul_comm b]
    exact (Nat.mul_add_lt_is_or (by omega : 2 ^ 8 * b < 2 ^ 16) a).symm
  have h2 : 2 ^ 16 * a + 2 ^ 8 * b = 2 ^ 8 * (2 ^ 8 * a + b) := by omega
  rw [h1, h2, ← Nat.mul_add_lt_is_or (by omega : c < 2 ^ 8) _]
  omega

theorem get_24_bit_uint_eq (s : CSE7766Component) (start : Nat) :
    get_24_bit_uint_ s start =
      65536 * raw_at s.raw_data_ start + 256 * raw_at s.raw_data_ (start + 1) +
        raw_at s.raw_data_ (start + 2) :=
  shift_or_eq _ _ _ (raw_at_lt _ _) (raw_at_lt _ _)

set_option maxRecDepth 100000 in
theorem mask_0x40_fin : ∀ b : Fin 256, ((b.val &&& 0x40) != 0) = b.val.testBit 6 := by
  decide

theorem have_voltage_eq_testBit (s : CSE7766Component) :
    have_voltage s = (adj s).testBit 6 :=
  mask_0x40_fin ⟨adj s, raw_at_lt _ _⟩

/-- C11: on a frame that is not aborted, with a non-zero voltage cycle
`Y = 65536*b[5] + 256*b[6] + b[7]` and `C = 65536*b[2] + 256*b[3] + b[4]`:
if bit 6 of the adjustment byte is set, the voltage sum grows by `C / Y` and
the voltage count is incremented; if it is clear, both are unchanged.  With
adjustment byte 0x40, `C = 1000000` and `Y = 4545` the sample is
`1000000 / 4545` and the current and power sums and counts, the energy total,
the pending count and the last pulse counter are unchanged. -/
theorem voltage_sample (s : CSE7766Component) (ha : aborts s = false)
    (hy : 65536 * raw_at s.raw_data_ 5 + 256 * raw_at s.raw_data_ 6 + raw_at s.raw_data_ 7 ≠ 0) :
    get_24_bit_uint_ s 2 =
      65536 * raw_at s.raw_data_ 2 + 256 * raw_at s.raw_data_ 3 + raw_at s.raw_data_ 4 ∧
    get_24_bit_uint_ s 5 =
      65536 * raw_at s.raw_data_ 5 + 256 * raw_at s.raw_data_ 6 + raw_at s.raw_data_ 7 ∧
    ((adj s).testBit 6 = true →
      (parse_data_ s).voltage_acc_ = s.voltage_acc_ +
        ((65536 * raw_at s.raw_data_ 2 + 256 * raw_at s.raw_data_ 3 + raw_at s.raw_data_ 4 : Nat) : ℚ) /
        ((65536 * raw_at s.raw_data_ 5 + 256 * raw_at s.raw_data_ 6 + raw_at s.raw_data_ 7 : Nat) : ℚ) ∧
      ((parse_data_ s).voltage_acc_ - s.voltage_acc_) *
        ((65536 * raw_at s.raw_data_ 5 + 256 * raw_at s.raw_data_ 6 + raw_at s.raw_data_ 7 : Nat) : ℚ) =
        ((65536 * raw_at s.raw_data_ 2 + 256 * raw_at s.raw_data_ 3 + raw_at s.raw_data_ 4 : Nat) : ℚ) ∧
      (parse_data_ s).voltage_counts_ = inc_u32 s.voltage_counts_) ∧
    ((adj s).testBit 6 = false →
      (parse_data_ s).voltage_acc_ = s.voltage_acc_ ∧
      (parse_data_ s).voltage_counts_ = s.voltage_counts_) ∧
    (adj s = 0x40 →
      65536 * raw_at s.raw_data_ 2 + 256 * raw_at s.raw_data_ 3 + raw_at s.raw_data_ 4 = 1000000 →
      65536 * raw_at s.raw_data_ 5 + 256 * raw_at s.raw_data_ 6 + raw_at s.raw_data_ 7 = 4545 →
      (parse_data_ s).voltage_acc_ = s.voltage_acc_ + 1000000 / 4545 ∧
      (parse_data_ s).voltage_counts_ = inc_u32 s.voltage_counts_ ∧
      (parse_data_ s).current_acc_ = s.current_acc_ ∧
      (parse_data_ s).current_counts_ = s.current_counts_ ∧
      (parse_data_ s).power_acc_ = s.power_acc_ ∧
      (parse_data_ s).power_counts_ = s.power_counts_ ∧
      (parse_data_ s).energy_total_ = s.energy_total_ ∧
      (parse_data_ s).energy_total_counts_ = s.energy_total_counts_ ∧
      (parse_data_ s).cf_pulses_last_ = s.cf_pulses_last_) := by
  have hC := get_24_bit_uint_eq s 2
  have hY := get_24_bit_uint_eq s 5
  have hbit := have_voltage_eq_testBit s
  rw [parse_data_of_not_aborts s ha]
  refine ⟨hC, hY, ?_, ?_, ?_⟩
  · intro h6
    have hv : have_voltage s = true := by rw [hbit]; exact h6
    have hy' : ((65536 * raw_at s.raw_data_ 5 + 256 * raw_at s.raw_data_ 6 +
        raw_at s.raw_data_ 7 : Nat) : ℚ) ≠ 0 := by exact_mod_cast hy
    simp only [hv, if_true, voltage, hC, hY, and_true, true_and]
    rw [add_sub_cancel_left, div_mul_cancel₀ _ hy']
  · intro h6
    have hv : have_voltage s = false := by rw [hbit]; exact h6
    simp [hv]
  · intro hadj h1 h2
    have hv : have_voltage s = true := by
      unfold have_voltage
      rw [hadj]
      decide
    have hp : have_power s = false := by
      unfold have_power
      rw [hadj]
      decide
    have hc : have_current s = false := by
      unfold have_current
      rw [hadj]
      decide
    simp only [hv, hp, hc, if_true, voltage, hC, hY, h1, h2]
    simp

theorem voltage_sample_witness :
    (parse_data_ (fresh frame_v220 0)).voltage_acc_ = (fresh frame_v220 0).voltage_acc_ + 1000000 / 4545 ∧
    (parse_data_ (fresh frame_v220 0)).voltage_counts_ = inc_u32 (fresh frame_v220 0).voltage_counts_ :=
  ⟨((voltage_sample (fresh frame_v220 0) (by decide) (by decide)).2.2.2.2
      (by decide) (by decide) (by decide)).1,
   ((voltage_sample (fresh frame_v220 0) (by decide) (by decide)).2.2.2.2
      (by decide) (by decide) (by decide)).2.1⟩

/-- C12: when the stored counter `L` is at most 65535 and the frame counter
`c` is below it, the pulse difference of `parse_data_` is `c + (65536 - L)`,
which is `(c - L) mod 65536` and lies in 1..65535; a power-present frame that
is not aborted adds that difference times the power coefficient, scaled, to the
energy total.  For `L = 65530` and `c = 5` the difference is 11. -/
theorem cf_diff_wraparound (s : CSE7766Component) (hL : s.cf_pulses_last_ ≤ 65535)
    (hlt : cf_pulses s < s.cf_pulses_last_) :
    cf_diff s = cf_pulses s + (65536 - s.cf_pulses_last_) ∧
    (cf_diff s : Int) = ((cf_pulses s : Int) - (s.cf_pulses_last_ : Int)) % 65536 ∧
    1 ≤ cf_diff s ∧ cf_diff s ≤ 65535 ∧
    (aborts s = false → have_power s = true →
      (parse_data_ s).energy_total_ = s.energy_total_ +
        ((cf_pulses s + (65536 - s.cf_pulses_last_) : Nat) : ℚ) * (get_24_bit_uint_ s 14 : ℚ) /
          1000000 / 3600) ∧
    (s.cf_pulses_last_ = 65530 → cf_pulses s = 5 → cf_diff s = 11) := by
  have h0 : s.cf_pulses_last_ ≠ 0 := by omega
  have hd : cf_diff s = cf_pulses s + (65536 - s.cf_pulses_last_) := by
    unfold cf_diff cf_pulses_base add_u32 sub_u32
    rw [if_neg h0, if_pos hlt]
    omega
  refine ⟨hd, ?_, ?_, ?_, ?_, ?_⟩
  · rw [hd]
    omega
  · omega
  · omega
  · intro ha hp
    rw [parse_data_of_not_aborts s ha]
    simp only [hp, if_true, energy, hd]
  · intro h1 h2
    rw [hd, h1, h2]

theorem cf_diff_wraparound_witness : cf_diff (fresh frame_cf5 65530) = 11 :=
  (cf_diff_wraparound (fresh frame_cf5 65530) (by decide) (by decide)).2.2.2.2.2 rfl (by decide)

/-- C13: when no pulse counter has been recorded yet (`cf_pulses_last_` is 0),
a power-present frame that is not aborted stores its pulse counter as the last
pulse counter, adds exactly zero to the energy total whatever the power
coefficient is, and increments the pending count. -/
theorem first_power_frame (s : CSE7766Component) (h0 : s.cf_pulses_last_ = 0)
    (ha : aborts s = false) (hp : have_power s = true) :
    (parse_data_ s).cf_pulses_last_ = cf_pulses s ∧
    cf_diff s = 0 ∧
    (parse_data_ s).energy_total_ = s.energy_total_ ∧
    (parse_data_ s).energy_total_counts_ = inc_u32 s.energy_total_counts_ := by
  have hd := cf_diff_of_last_eq_zero s h0
  rw [parse_data_of_not_aborts s ha]
  simp [hp, energy, hd]

theorem first_power_frame_witness :
    (parse_data_ (fresh frame_cf5 0)).cf_pulses_last_ = cf_pulses (fresh frame_cf5 0) ∧
    cf_diff (fresh frame_cf5 0) = 0 ∧
    (parse_data_ (fresh frame_cf5 0)).energy_total_ = (fresh frame_cf5 0).energy_total_ ∧
    (parse_data_ (fresh frame_cf5 0)).energy_total_counts_ =
      inc_u32 (fresh frame_cf5 0).energy_total_counts_ :=
  first_power_frame (fresh frame_cf5 0) rfl (by decide) (by decide)

/-! ## The publish step `update` -/

theorem published_append (id : SensorId) (t1 t2 : List Event) :
    published id (t1 ++ t2) = published id t1 ++ published id t2 := by
  induction t1 with
  | nil => rfl
  | cons e t ih =>
    cases e <;> simp [published, ih]
    split_ifs <;> simp

/-- The state after `update()`, field by field. -/
theorem update_eq (s : CSE7766Component) :
    update s =
      { s with
        voltage_acc_ := if s.voltage_counts_ ≠ 0 then 0 else s.voltage_acc_
        voltage_counts_ := if s.voltage_counts_ ≠ 0 then 0 else s.voltage_counts_
        current_acc_ := if s.current_counts_ ≠ 0 then 0 else s.current_acc_
        current_counts_ := if s.current_counts_ ≠ 0 then 0 else s.current_counts_
        power_acc_ := if s.power_counts_ ≠ 0 then 0 else s.power_acc_
        power_counts_ := if s.power_counts_ ≠ 0 then 0 else s.power_counts_
        energy_total_counts_ :=
          if s.energy_total_counts_ ≠ 0 then 0 else s.energy_total_counts_
        trace_ := s.trace_ ++
          (if s.voltage_counts_ ≠ 0 ∧ s.voltage_sensor_ = true then
            [Event.publish SensorId.voltage (s.voltage_acc_ / (s.voltage_counts_ : ℚ))] else []) ++
          (if s.current_counts_ ≠ 0 ∧ s.current_sensor_ = true then
            [Event.publish SensorId.current (s.current_acc_ / (s.current_counts_ : ℚ))] else []) ++
          (if s.power_counts_ ≠ 0 ∧ s.power_sensor_ = true then
            [Event.publish SensorId.power (s.power_acc_ / (s.power_counts_ : ℚ))] else []) ++
          (if s.energy_total_counts_ ≠ 0 ∧ s.energy_sensor_ = true then
            [Event.publish SensorId.energy s.energy_total_] else []) } := by
  unfold update publish_state
  by_cases hv : s.voltage_counts_ = 0 <;> by_cases hc : s.current_counts_ = 0 <;>
    by_cases hp : s.power_counts_ = 0 <;> by_cases he : s.energy_total_counts_ = 0 <;>
    cases hvs : s.voltage_sensor_ <;> cases hcs : s.current_sensor_ <;>
    cases hps : s.power_sensor_ <;> cases hes : s.energy_sensor_ <;>
    simp [hv, hc, hp, he, hvs, hcs, hps, hes]

theorem update_counts_zero (s : CSE7766Component) :
    (update s).voltage_counts_ = 0 ∧ (update s).current_counts_ = 0 ∧
    (update s).power_counts_ = 0 ∧ (update s).energy_total_counts_ = 0 := by
  rw [update_eq]
  refine ⟨?_, ?_, ?_, ?_⟩ <;> simp

/-- A second `update()` right after the first changes nothing and publishes
nothing. -/
theorem update_update (s : CSE7766Component) : update (update s) = update s := by
  obtain ⟨h1, h2, h3, h4⟩ := update_counts_zero s
  rw [update_eq (update s)]
  generalize update s = u at h1 h2 h3 h4 ⊢
  cases u
  simp only at h1 h2 h3 h4
  simp [h1, h2, h3, h4]

/-- C14 (the claim as stated fails): in the component `unattached` the voltage
count is 2, yet `update()` publishes no voltage (no sensor is attached); the
sum and count are reset all the same. -/
theorem update_unattached_publishes_nothing :
    0 < unattached.voltage_counts_ ∧
    published SensorId.voltage (update unattached).trace_ =
      published SensorId.voltage unattached.trace_ ∧
    (update unattached).voltage_acc_ = 0 ∧
    (update unattached).voltage_counts_ = 0 := by
  rw [update_eq]
  refine ⟨by decide, ?_, ?_, ?_⟩ <;> simp [unattached, fresh, published]

/-- C14 (amended): for each of voltage, current and power, `update()` publishes
sum / count exactly when the count is greater than 0 and the sensor is
attached; when the count is greater than 0 the sum and count are 0 afterwards
(sensor or not); when the count is 0 nothing is published and the sum and count
stay as they are.  A second `update()` right after the first publishes nothing
and changes nothing. -/
theorem update_publishes_averages (s : CSE7766Component) :
    (published SensorId.voltage (update s).trace_ =
        published SensorId.voltage s.trace_ ++
          (if 0 < s.voltage_counts_ ∧ s.voltage_sensor_ = true then
            [s.voltage_acc_ / (s.voltage_counts_ : ℚ)] else []) ∧
      (0 < s.voltage_counts_ → (update s).voltage_acc_ = 0 ∧ (update s).voltage_counts_ = 0) ∧
      (s.voltage_counts_ = 0 →
        (update s).voltage_acc_ = s.voltage_acc_ ∧
        (update s).voltage_counts_ = s.voltage_counts_)) ∧
    (published SensorId.current (update s).trace_ =
        published SensorId.current s.trace_ ++
          (if 0 < s.current_counts_ ∧ s.current_sensor_ = true then
            [s.current_acc_ / (s.current_counts_ : ℚ)] else []) ∧
      (0 < s.current_counts_ → (update s).current_acc_ = 0 ∧ (update s).current_counts_ = 0) ∧
      (s.current_counts_ = 0 →
        (update s).current_acc_ = s.current_acc_ ∧
        (update s).current_counts_ = s.current_counts_)) ∧
    (published SensorId.power (update s).trace_ =
        published SensorId.power s.trace_ ++
          (if 0 < s.power_counts_ ∧ s.power_sensor_ = true then
            [s.power_acc_ / (s.power_counts_ : ℚ)] else []) ∧
      (0 < s.power_counts_ → (update s).power_acc_ = 0 ∧ (update s).power_counts_ = 0) ∧
      (s.power_counts_ = 0 →
        (update s).power_acc_ = s.power_acc_ ∧
        (update s).power_counts_ = s.power_counts_)) ∧
    update (update s) = update s := by
  refine ⟨?_, ?_, ?_, update_update s⟩
  · rw [update_eq]
    refine ⟨?_, ?_, ?_⟩
    · simp only [published_append, Nat.pos_iff_ne_zero]
      by_cases h1 : s.voltage_counts_ ≠ 0 ∧ s.voltage_sensor_ = true <;>
        by_cases h2 : s.current_counts_ ≠ 0 ∧ s.current_sensor_ = true <;>
        by_cases h3 : s.power_counts_ ≠ 0 ∧ s.power_sensor_ = true <;>
        by_cases h4 : s.energy_total_counts_ ≠ 0 ∧ s.energy_sensor_ = true <;>
        simp [h1, h2, h3, h4, published]
    · intro h
      have h' : s.voltage_counts_ ≠ 0 := Nat.pos_iff_ne_zero.mp h
      simp [h']
    · intro h
      simp [h]
  · rw [update_eq]
    refine ⟨?_, ?_, ?_⟩
    · simp only [published_append, Nat.pos_iff_ne_zero]
      by_cases h1 : s.voltage_counts_ ≠ 0 ∧ s.voltage_sensor_ = true <;>
        by_cases h2 : s.current_counts_ ≠ 0 ∧ s.current_sensor_ = true <;>
        by_cases h3 : s.power_counts_ ≠ 0 ∧ s.power_sensor_ = true <;>
        by_cases h4 : s.energy_total_counts_ ≠ 0 ∧ s.energy_sensor_ = true <;>
        simp [h1, h2, h3, h4, published]
    · intro h
      have h' : s.current_counts_ ≠ 0 := Nat.pos_iff_ne_zero.mp h
      simp [h']
    · intro h
      simp [h]
  · rw [update_eq]
    refine ⟨?_, ?_, ?_⟩
    · simp only [published_append, Nat.pos_iff_ne_zero]
      by_cases h1 : s.voltage_counts_ ≠ 0 ∧ s.voltage_sensor_ = true <;>
        by_cases h2 : s.current_counts_ ≠ 0 ∧ s.current_sensor_ = true <;>
        by_cases h3 : s.power_counts_ ≠ 0 ∧ s.power_sensor_ = true <;>
        by_cases h4 : s.energy_total_counts_ ≠ 0 ∧ s.energy_sensor_ = true <;>
        simp [h1, h2, h3, h4, published]
    · intro h
      have h' : s.power_counts_ ≠ 0 := Nat.pos_iff_ne_zero.mp h
      simp [h']
    · intro h
      simp [h]

theorem update_publishes_averages_witness :
    published SensorId.voltage (update attached).trace_ =
      published SensorId.voltage attached.trace_ ++
        (if 0 < attached.voltage_counts_ ∧ attached.voltage_sensor_ = true then
          [attached.voltage_acc_ / (attached.voltage_counts_ : ℚ)] else []) :=
  (update_publishes_averages attached).1.1

/-- C15 (the claim as stated fails): in the component `unattached` the energy
pending count is 1, yet `update()` publishes no energy value (no sensor is
attached); the pending count is reset all the same. -/
theorem update_unattached_publishes_no_energy :
    0 < unattached.energy_total_counts_ ∧
    published SensorId.energy (update unattached).trace_ =
      published SensorId.energy unattached.trace_ ∧
    (update unattached).energy_total_counts_ = 0 := by
  rw [update_eq]
  refine ⟨by decide, ?_, ?_⟩ <;> simp [unattached, fresh, published]

/-- C15 (amended): `update()` publishes the energy value exactly when the
pending count is greater than 0 and the energy sensor is attached; the value
published is the lifetime energy total; the pending count is 0 afterwards, and
the lifetime energy total and the last pulse counter are unchanged. -/
theorem update_publishes_energy_total (s : CSE7766Component) :
    published SensorId.energy (update s).trace_ =
      published SensorId.energy s.trace_ ++
        (if 0 < s.energy_total_counts_ ∧ s.energy_sensor_ = true then [s.energy_total_]
          else []) ∧
    (update s).energy_total_counts_ = 0 ∧
    (update s).energy_total_ = s.energy_total_ ∧
    (update s).cf_pulses_last_ = s.cf_pulses_last_ := by
  refine ⟨?_, (update_counts_zero s).2.2.2, ?_, ?_⟩
  · rw [update_eq]
    simp only [published_append, Nat.pos_iff_ne_zero]
    by_cases h1 : s.voltage_counts_ ≠ 0 ∧ s.voltage_sensor_ = true <;>
      by_cases h2 : s.current_counts_ ≠ 0 ∧ s.current_sensor_ = true <;>
      by_cases h3 : s.power_counts_ ≠ 0 ∧ s.power_sensor_ = true <;>
      by_cases h4 : s.energy_total_counts_ ≠ 0 ∧ s.energy_sensor_ = true <;>
      simp [h1, h2, h3, h4, published]
  · rw [update_eq]
  · rw [update_eq]

theorem update_publishes_energy_total_witness :
    published SensorId.energy (update attached).trace_ =
      published SensorId.energy attached.trace_ ++
        (if 0 < attached.energy_total_counts_ ∧ attached.energy_sensor_ = true then
          [attached.energy_total_] else []) :=
  (update_publishes_energy_total attached).1

/-! ## Monotonicity of the energy total -/

theorem energy_nonneg (s : CSE7766Component) : 0 ≤ energy s := by
  unfold energy
  positivity

theorem parse_data_energy_mono (s : CSE7766Component) :
    s.energy_total_ ≤ (parse_data_ s).energy_total_ := by
  cases h : aborts s
  · rw [parse_data_of_not_aborts s h]
    have he := energy_nonneg s
    cases hp : have_power s
    · simp
    · simp only [if_true]
      linarith
  · rw [parse_data_of_aborts s h]

theorem loop_body_energy_mono (s : CSE7766Component) (b : Byte) :
    s.energy_total_ ≤ (loop_body s b).energy_total_ := by
  cases h : check_byte_ (read_byte s b)
  · rw [loop_body_of_reject s b h]
  · by_cases hi : s.raw_data_index_ = 23
    · rw [loop_body_of_complete s b h hi]
      exact parse_data_energy_mono (log_parse (read_byte s b))
    · rw [loop_body_of_accept s b h hi]

theorem foldl_energy_mono (avail : List Byte) (s : CSE7766Component) :
    s.energy_total_ ≤ (avail.foldl loop_body s).energy_total_ := by
  induction avail generalizing s with
  | nil => exact le_refl _
  | cons b bs ih => exact le_trans (loop_body_energy_mono s b) (ih _)

theorem loop_energy_mono (s : CSE7766Component) (now : Nat) (avail : List Byte) :
    s.energy_total_ ≤ (loop s now avail).energy_total_ := by
  unfold loop
  by_cases hc : sub_u32 now s.last_transmission_ ≥ 500
  · simp only [hc, if_true]
    split_ifs
    · exact le_refl _
    · exact foldl_energy_mono _ _
  · simp only [hc, if_false]
    split_ifs
    · exact le_refl _
    · exact foldl_energy_mono _ _

theorem run_energy_mono (calls : List (Nat × List Byte)) (s : CSE7766Component) :
    s.energy_total_ ≤ (run s calls).energy_total_ := by
  induction calls generalizing s with
  | nil => exact le_refl _
  | cons c cs ih => exact le_trans (loop_energy_mono s c.1 c.2) (ih _)

theorem update_energy_eq (s : CSE7766Component) : (update s).energy_total_ = s.energy_total_ := by
  rw [update_eq]

theorem apply_op_energy_mono (s : CSE7766Component) (op : Op) :
    s.energy_total_ ≤ (apply_op s op).energy_total_ := by
  cases op with
  | loop now avail => exact loop_energy_mono s now avail
  | update => exact (update_energy_eq s).ge
  | parse raw => exact parse_data_energy_mono (next_frame s raw)

theorem apply_ops_energy_mono (ops : List Op) (s : CSE7766Component) :
    s.energy_total_ ≤ (apply_ops s ops).energy_total_ := by
  induction ops generalizing s with
  | nil => exact le_refl _
  | cons op rest ih => exact le_trans (apply_op_energy_mono s op) (ih _)

/-- C16: the lifetime energy total never decreases.  The per-frame increment
`cf_diff * power_coeff / 1000000 / 3600` is never negative; for every state,
`parse_data_` on any frame, `loop()` at any time on any bytes, any sequence of
`loop()` invocations, `update()` (which leaves it equal), and any sequence of
these operations leave the energy total greater than or equal to what it
was. -/
theorem energy_total_monotone (s : CSE7766Component) :
    0 ≤ energy s ∧
    s.energy_total_ ≤ (parse_data_ s).energy_total_ ∧
    (∀ raw : RawData, s.energy_total_ ≤ (parse_data_ (next_frame s raw)).energy_total_) ∧
    (∀ (now : Nat) (avail : List Byte), s.energy_total_ ≤ (loop s now avail).energy_total_) ∧
    (∀ calls : List (Nat × List Byte), s.energy_total_ ≤ (run s calls).energy_total_) ∧
    (update s).energy_total_ = s.energy_total_ ∧
    (∀ ops : List Op, s.energy_total_ ≤ (apply_ops s ops).energy_total_) :=
  ⟨energy_nonneg s, parse_data_energy_mono s,
    fun raw => parse_data_energy_mono (next_frame s raw), loop_energy_mono s,
    fun calls => run_energy_mono calls s, update_energy_eq s,
    fun ops => apply_ops_energy_mono ops s⟩

/-! ## The timeout check of `loop` -/

theorem loop_nil (s : CSE7766Component) (now : Nat) :
    loop s now [] =
      (if 500 ≤ sub_u32 now s.last_transmission_ then
        { s with raw_data_index_ := 0, trace_ := s.trace_ ++ [Event.timeout] }
      else s) := by
  unfold loop
  simp

theorem loop_cons (s : CSE7766Component) (now : Nat) (b : Byte) (rest : List Byte) :
    loop s now (b :: rest) =
      (b :: rest).foldl loop_body
        { s with
          raw_data_index_ := if 500 ≤ sub_u32 now s.last_transmission_ then 0
            else s.raw_data_index_
          last_transmission_ := now
          trace_ := s.trace_ ++
            (if 500 ≤ sub_u32 now s.last_transmission_ then [Event.timeout] else []) } := by
  unfold loop
  by_cases hc : 500 ≤ sub_u32 now s.last_transmission_
  · simp [hc]
  · simp [hc]

/-- C17 (the claim as stated fails): with the cursor at 10 and the last byte
seen at time 0, a `loop()` invocation at time 500 (elapsed exactly 500, which
does not exceed 500) resets the cursor to 0. -/
theorem timeout_fires_at_500 :
    sub_u32 500 mid_frame.last_transmission_ = 500 ∧
    mid_frame.raw_data_index_ = 10 ∧
    (loop mid_frame 500 []).raw_data_index_ = 0 ∧
    (loop mid_frame 500 []).raw_data_index_ ≠ mid_frame.raw_data_index_ := by
  refine ⟨by decide, by decide, by decide, by decide⟩

/-- C17 (amended): with `elapsed = (now - last_transmission_) mod 2^32`,
`loop()` sets the cursor to 0 before any byte is stored exactly when `elapsed`
is at least 500; when `elapsed` is 499 or less the timeout check leaves the
cursor where it was.  (The first byte of the invocation is stored at the
cursor so obtained.) -/
theorem loop_timeout_check (s : CSE7766Component) (now : Nat) :
    sub_u32 now s.last_transmission_ =
      (((now : Int) - (s.last_transmission_ : Int)) % 4294967296).toNat ∧
    (500 ≤ sub_u32 now s.last_transmission_ → (loop s now []).raw_data_index_ = 0) ∧
    (sub_u32 now s.last_transmission_ ≤ 499 →
      (loop s now []).raw_data_index_ = s.raw_data_index_) ∧
    (∀ (b : Byte) (rest : List Byte),
      loop s now (b :: rest) =
        (b :: rest).foldl loop_body
          { s with
            raw_data_index_ := if 500 ≤ sub_u32 now s.last_transmission_ then 0
              else s.raw_data_index_
            last_transmission_ := now
            trace_ := s.trace_ ++
              (if 500 ≤ sub_u32 now s.last_transmission_ then [Event.timeout] else []) }) ∧
    (∀ b : Byte,
      (loop s now [b]).raw_data_ =
        raw_store s.raw_data_
          (if 500 ≤ sub_u32 now s.last_transmission_ then 0 else s.raw_data_index_) b) := by
  refine ⟨rfl, ?_, ?_, loop_cons s now, ?_⟩
  · intro h
    rw [loop_nil, if_pos h]
  · intro h
    have h' : ¬ 500 ≤ sub_u32 now s.last_transmission_ := by omega
    rw [loop_nil, if_neg h']
  · intro b
    rw [loop_cons, List.foldl_cons, List.foldl_nil, loop_body_raw]

theorem loop_timeout_check_witness :
    (loop mid_frame 499 []).raw_data_index_ = mid_frame.raw_data_index_ :=
  (loop_timeout_check mid_frame 499).2.2.1 (by decide)

theorem loop_body_last_transmission (t : CSE7766Component) (b : Byte) :
    (loop_body t b).last_transmission_ = t.last_transmission_ := by
  cases h : check_byte_ (read_byte t b)
  · rw [loop_body_of_reject t b h]
  · by_cases hi : t.raw_data_index_ = 23
    · rw [loop_body_of_complete t b h hi]
      exact (parse_data_frame (log_parse (read_byte t b))).2.2.1
    · rw [loop_body_of_accept t b h hi]

theorem foldl_last_transmission (avail : List Byte) (t : CSE7766Component) :
    (avail.foldl loop_body t).last_transmission_ = t.last_transmission_ := by
  induction avail generalizing t with
  | nil => rfl
  | cons b bs ih => rw [List.foldl_cons, ih, loop_body_last_transmission]

/-- C18 (the claim as stated fails): a `loop()` invocation at time 100 with no
byte available leaves `last_transmission_` at 0. -/
theorem idle_loop_keeps_last_transmission :
    (fresh frame_all 0).last_transmission_ = 0 ∧
    (loop (fresh frame_all 0) 100 []).last_transmission_ = 0 ∧
    (loop (fresh frame_all 0) 100 []).last_transmission_ ≠ 100 := by
  refine ⟨by decide, by decide, by decide⟩

/-- C18 (amended): a `loop()` invocation at time `now` in which at least one
byte is available sets `last_transmission_` to `now`, once, before the read
loop (the loop body never writes it); an invocation with no byte available
returns before that and leaves `last_transmission_` unchanged. -/
theorem loop_last_transmission (s : CSE7766Component) (now : Nat) (avail : List Byte) :
    (avail ≠ [] → (loop s now avail).last_transmission_ = now) ∧
    (avail = [] → (loop s now avail).last_transmission_ = s.last_transmission_) ∧
    (∀ (t : CSE7766Component) (b : Byte),
      (loop_body t b).last_transmission_ = t.last_transmission_) := by
  refine ⟨?_, ?_, loop_body_last_transmission⟩
  · intro h
    cases avail with
    | nil => exact absurd rfl h
    | cons b rest => rw [loop_cons, foldl_last_transmission]
  · intro h
    subst h
    rw [loop_nil]
    split_ifs <;> rfl

theorem loop_last_transmission_witness :
    (loop (fresh frame_all 0) 100 [0x55]).last_transmission_ = 100 :=
  (loop_last_transmission (fresh frame_all 0) 100 [0x55]).1 (by decide)

theorem check_byte_at_zero (t : CSE7766Component) (b : Byte) (h0 : t.raw_data_index_ = 0) :
    check_byte_ (read_byte t b) = true ↔ (b.val = 0x55 ∨ b.val / 16 = 0xF ∨ b.val = 0xAA) := by
  have hi : (read_byte t b).raw_data_index_ = 0 := h0
  have hb : raw_at (read_byte t b).raw_data_ 0 = b.val := by
    show raw_at (raw_store t.raw_data_ t.raw_data_index_ b) 0 = b.val
    rw [h0]
    exact raw_at_store_same _ 0 (by decide) b
  rw [check_byte_accept_low _ (by rw [hi]; decide), hi, hb]
  constructor
  · rintro (⟨_, h⟩ | ⟨h, _⟩ | ⟨h, _⟩)
    · exact h
    · exact absurd h (by decide)
    · exact absurd h (by decide)
  · intro h
    exact Or.inl ⟨rfl, h⟩

theorem loop_body_at_zero_accept (t : CSE7766Component) (b : Byte) (h0 : t.raw_data_index_ = 0)
    (hb : b.val = 0x55 ∨ b.val / 16 = 0xF ∨ b.val = 0xAA) :
    loop_body t b =
      { t with raw_data_ := raw_store t.raw_data_ 0 b
               raw_data_index_ := 1
               trace_ := t.trace_ ++ [Event.rx b] } := by
  have hacc := (check_byte_at_zero t b h0).mpr hb
  rw [loop_body_of_accept t b hacc (by rw [h0]; decide), h0]

theorem loop_body_at_zero_reject (t : CSE7766Component) (b : Byte) (h0 : t.raw_data_index_ = 0)
    (hb : ¬ (b.val = 0x55 ∨ b.val / 16 = 0xF ∨ b.val = 0xAA)) :
    (loop_body t b).raw_data_index_ = 0 ∧ (loop_body t b).warning_ = true := by
  have hrej : check_byte_ (read_byte t b) = false := by
    cases hc : check_byte_ (read_byte t b)
    · rfl
    · exact absurd ((check_byte_at_zero t b h0).mp hc) hb
  rw [loop_body_of_reject t b hrej]
  exact ⟨rfl, rfl⟩

/-- C19: when 500 or more time units have elapsed since `last_transmission_`
(whatever the cursor is: 10, or any other position of a partial frame), the
next `loop()` invocation resets the cursor to 0 before consuming a byte, so the
next byte is stored at position 0 and validated as a header byte.  The reset
sets no warning and touches no accumulator: with no byte available only the
cursor (and the trace) changes; with one accepted header byte available only
the buffer, the cursor (now 1), the time stamp (and the trace) change. -/
theorem timeout_discards_silently (s : CSE7766Component) (now : Nat)
    (hgap : 500 ≤ sub_u32 now s.last_transmission_) :
    loop s now [] = { s with raw_data_index_ := 0, trace_ := s.trace_ ++ [Event.timeout] } ∧
    (∀ (b : Byte) (rest : List Byte),
      loop s now (b :: rest) = rest.foldl loop_body (loop s now [b])) ∧
    (∀ b : Byte, (loop s now [b]).raw_data_ = raw_store s.raw_data_ 0 b ∧
      raw_at (loop s now [b]).raw_data_ 0 = b.val) ∧
    (∀ b : Byte, (b.val = 0x55 ∨ b.val / 16 = 0xF ∨ b.val = 0xAA) →
      loop s now [b] =
        { s with raw_data_ := raw_store s.raw_data_ 0 b
                 raw_data_index_ := 1
                 last_transmission_ := now
                 trace_ := s.trace_ ++ [Event.timeout, Event.rx b] }) ∧
    (∀ b : Byte, ¬ (b.val = 0x55 ∨ b.val / 16 = 0xF ∨ b.val = 0xAA) →
      (loop s now [b]).raw_data_index_ = 0 ∧ (loop s now [b]).warning_ = true) := by
  have hone : ∀ b : Byte, loop s now [b] =
      loop_body { s with raw_data_index_ := 0, last_transmission_ := now
                         trace_ := s.trace_ ++ [Event.timeout] } b := by
    intro b
    rw [loop_cons]
    simp [hgap]
  refine ⟨?_, ?_, ?_, ?_, ?_⟩
  · rw [loop_nil, if_pos hgap]
  · intro b rest
    rw [loop_cons, loop_cons]
    rfl
  · intro b
    have hr : (loop s now [b]).raw_data_ = raw_store s.raw_data_ 0 b := by
      rw [hone, loop_body_raw]
    refine ⟨hr, ?_⟩
    rw [hr]
    exact raw_at_store_same _ 0 (by decide) b
  · intro b hb
    rw [hone, loop_body_at_zero_accept _ b rfl hb]
    simp
  · intro b hb
    rw [hone]
    exact loop_body_at_zero_reject _ b rfl hb

theorem timeout_discards_silently_witness :
    loop mid_frame 500 [] =
      { mid_frame with raw_data_index_ := 0, trace_ := mid_frame.trace_ ++ [Event.timeout] } :=
  (timeout_discards_silently mid_frame 500 (by decide)).1

/-! ## The cursor stays inside the buffer -/

theorem loop_body_cursor (t : CSE7766Component) (b : Byte) :
    (check_byte_ (read_byte t b) = true →
      (loop_body t b).raw_data_index_ = (t.raw_data_index_ + 1) % 24) ∧
    (check_byte_ (read_byte t b) = false → (loop_body t b).raw_data_index_ = 0) := by
  constructor
  · intro h
    by_cases hi : t.raw_data_index_ = 23
    · rw [loop_body_of_complete t b h hi, hi]
    · rw [loop_body_of_accept t b h hi]
  · intro h
    rw [loop_body_of_reject t b h]

theorem loop_body_cursor_le (t : CSE7766Component) (b : Byte) :
    (loop_body t b).raw_data_index_ ≤ 23 := by
  cases h : check_byte_ (read_byte t b)
  · rw [(loop_body_cursor t b).2 h]
    exact Nat.zero_le _
  · rw [(loop_body_cursor t b).1 h]
    omega

theorem foldl_cursor_le (avail : List Byte) (t : CSE7766Component)
    (h : t.raw_data_index_ ≤ 23) : (avail.foldl loop_body t).raw_data_index_ ≤ 23 := by
  induction avail generalizing t with
  | nil => exact h
  | cons b bs ih => exact ih _ (loop_body_cursor_le t b)

theorem loop_cursor_le (s : CSE7766Component) (now : Nat) (avail : List Byte)
    (h : s.raw_data_index_ ≤ 23) : (loop s now avail).raw_data_index_ ≤ 23 := by
  cases avail with
  | nil =>
    rw [loop_nil]
    split_ifs
    · exact Nat.zero_le _
    · exact h
  | cons b rest =>
    rw [loop_cons]
    apply foldl_cursor_le
    show (if 500 ≤ sub_u32 now s.last_transmission_ then 0 else s.raw_data_index_) ≤ 23
    split_ifs
    · exact Nat.zero_le _
    · exact h

theorem run_cursor_le (calls : List (Nat × List Byte)) (s : CSE7766Component)
    (h : s.raw_data_index_ ≤ 23) : (run s calls).raw_data_index_ ≤ 23 := by
  induction calls generalizing s with
  | nil => exact h
  | cons c cs ih => exact ih _ (loop_cursor_le s c.1 c.2 h)

/-- C20: start with the cursor at 0 and run any sequence of `loop()`
invocations, with any times and any bytes (a state in the middle of an
invocation is the state after a shorter invocation).  The cursor is at most 23,
so the byte store of `loop()` lands in the buffer (the stored byte is read back
at the cursor) and every position `check_byte_` reads is below 24; every
position `parse_data_` reads, the three bytes of `get_24_bit_uint_` at offsets
2, 5, 8, 11, 14, 17 included, is below 24; a byte accepted at position `p`
leaves the cursor at `(p + 1) mod 24` and a rejected byte leaves it at 0. -/
theorem cursor_in_bounds (s0 : CSE7766Component) (calls : List (Nat × List Byte))
    (h0 : s0.raw_data_index_ = 0) :
    (run s0 calls).raw_data_index_ ≤ 23 ∧
    (∀ b : Byte,
      raw_at (read_byte (run s0 calls) b).raw_data_ (run s0 calls).raw_data_index_ = b.val) ∧
    (∀ (b : Byte) (i : Nat), i ∈ check_byte_reads (read_byte (run s0 calls) b) → i < 24) ∧
    (∀ i : Nat, i ∈ parse_data_reads → i < 24) ∧
    (∀ start : Nat, start ∈ [2, 5, 8, 11, 14, 17] →
      ∀ i : Nat, i ∈ get_24_bit_uint_reads start → i < 24) ∧
    (∀ b : Byte, check_byte_ (read_byte (run s0 calls) b) = true →
      (loop_body (run s0 calls) b).raw_data_index_ = ((run s0 calls).raw_data_index_ + 1) % 24) ∧
    (∀ b : Byte, check_byte_ (read_byte (run s0 calls) b) = false →
      (loop_body (run s0 calls) b).raw_data_index_ = 0) := by
  have hle : (run s0 calls).raw_data_index_ ≤ 23 :=
    run_cursor_le calls s0 (by rw [h0]; exact Nat.zero_le _)
  refine ⟨hle, ?_, ?_, ?_, ?_, ?_, ?_⟩
  · intro b
    exact raw_at_store_same _ _ (by omega) b
  · intro b i hi
    have hidx : (read_byte (run s0 calls) b).raw_data_index_ = (run s0 calls).raw_data_index_ :=
      rfl
    unfold check_byte_reads at hi
    rw [hidx] at hi
    rcases List.mem_cons.mp hi with h | h
    · omega
    · split_ifs at h
      · rcases List.mem_append.mp h with h2 | h2
        · have := (List.mem_range'_1.mp h2).2
          omega
        · have : i = 23 := by simpa using h2
          omega
      · simp at h
  · decide
  · decide
  · intro b
    exact (loop_body_cursor _ b).1
  · intro b
    exact (loop_body_cursor _ b).2

theorem cursor_in_bounds_witness :
    (run (fresh frame_F8 0) [(0, raw_list frame_all), (7, [0x55, 0x5A, 1])]).raw_data_index_ ≤ 23 :=
  (cursor_in_bounds (fresh frame_F8 0) [(0, raw_list frame_all), (7, [0x55, 0x5A, 1])] rfl).1

end CSE7766
